import Mathlib

set_option maxRecDepth 200000

/-!
Verification of the candidate-propagation sudoku solver (`src/main.rs`).

The Rust program works over a `Gameboard<9, 9>` (a 9×9 array of `u8` cell
values, `0` = unknown) and a `Candidates<9, 9>` (a 9×9 array of `u16`
bitmasks; bit `k` set means value `k+1` is still possible).  We embed both
as `List (List Nat)` (outer index `x`, inner index `y`, mirroring
`state[x][y]` / `cells[x][y]`), and each rule's `visit` as a left fold over
the coordinate sequence traversed by the corresponding Rust loops.
-/

/-- A 9×9 board of naturals, outer index `x`, inner index `y`. -/
abbrev Board := List (List Nat)

/-- Candidate masks, same layout as `Board` (`cells[x][y]` in the source). -/
abbrev Cand := List (List Nat)

/-- Read `b[x][y]`, defaulting to `0` out of range (all accesses made by the
embedded program are in range for well-formed boards). -/
def bget (b : Board) (x y : Nat) : Nat := (b.getD x []).getD y 0

/-- Write `b[x][y] = v` (a no-op out of range, which the embedded program
never exercises on well-formed boards). -/
def bset (b : Board) (x y v : Nat) : Board := b.set x ((b.getD x []).set y v)

/-- Well-formedness: a 9×9 board. -/
def WF (b : Board) : Prop := b.length = 9 ∧ ∀ i, i < 9 → (b.getD i []).length = 9

instance : DecidablePred WF := fun b =>
  decidable_of_iff (b.length = 9 ∧ ∀ i, i < 9 → (b.getD i []).length = 9) Iff.rfl

/-- `Gameboard::set_cell`: `self.state[x][y] = value`. -/
def setCell (g : Board) (x y value : Nat) : Board := bset g x y value

/-- `u8::to_cell_mask`: `1 << self - 1`, i.e. `1 <<< (v - 1)` (the program
only applies it to values `1..=9`, where the `u16` shift cannot overflow). -/
def toCellMask (v : Nat) : Nat := 1 <<< (v - 1)

/-- Number of set bits among the 16 bits of a `u16` value
(`u16::count_ones`; masks are `u16`, so only bits `0..15` exist). -/
def countOnes16 (m : Nat) : Nat := ((List.range 16).filter (fun i => m.testBit i)).length

/-- `Candidates::exclude_candidate`:
`self.cells[x][y] &= !candidate.to_cell_mask()` (`!` is `u16` complement,
modelled as `65535 ^^^ mask`). -/
def excludeCandidate (c : Cand) (x y cand : Nat) : Cand :=
  bset c x y (bget c x y &&& (65535 ^^^ toCellMask cand))

/-- `Candidates::set_exclusive_candidate`: `self.cells[x][y] = candidate.to_cell_mask()`. -/
def setExclusiveCandidate (c : Cand) (x y cand : Nat) : Cand :=
  bset c x y (toCellMask cand)

/-- `Candidates::remaining_candidates`: `self.cells[x][y].count_ones()`. -/
def remainingCandidates (c : Cand) (x y : Nat) : Nat := countOnes16 (bget c x y)

/-- `Candidates::mark_as_solved`: `self.cells[x][y] = 0`. -/
def markAsSolved (c : Cand) (x y : Nat) : Cand := bset c x y 0

/-- The coordinate sequence of the double loop `for x in 0..9 { for y in 0..9 }`. -/
def allCoords : List (Nat × Nat) :=
  (List.range 9).flatMap (fun x => (List.range 9).map (fun y => (x, y)))

/-- Truncated base-2 logarithm with explicit fuel (so that it reduces by
iota; `16` steps of halving suffice for any `u16` value). -/
def log2fuel : Nat → Nat → Nat
  | 0, _ => 0
  | fuel + 1, n => if n < 2 then 0 else log2fuel fuel (n / 2) + 1

/-- Truncated base-2 logarithm of a `u16` value.  This models
`(m as f32).log2() as u8`: every `u16` value is exactly representable in
`f32`, and on the masks `apply_uniques` feeds it (exactly one set bit, i.e.
powers of two up to `2^8`) the `f32` logarithm is exact, so float truncation
agrees with the integer floor logarithm (`log2u16_pow` below connects it to
`Nat.log2`). -/
def log2u16 (n : Nat) : Nat := log2fuel 16 n

/-- `Candidates::apply_uniques`: for every cell with exactly one remaining
candidate, write that value into the gameboard via `set_cell` and record that
a change was made.  The written value models
`(self.cells[x][y] as f32).log2() as u8 + 1` via `log2u16`. -/
def applyUniques (c : Cand) (g : Board) : Board × Bool :=
  allCoords.foldl
    (fun acc p =>
      if remainingCandidates c p.1 p.2 = 1 then
        (setCell acc.1 p.1 p.2 (log2u16 (bget c p.1 p.2) + 1), true)
      else acc)
    (g, false)

/-- `ExcludeWhenSolved::visit`: mark every solved cell's mask as solved. -/
def excludeWhenSolvedVisit (g : Board) (c : Cand) : Cand :=
  allCoords.foldl (fun c p => if bget g p.1 p.2 = 0 then c else markAsSolved c p.1 p.2) c

/-- The cells `(0,y), (1,y), …, (8,y)` (the inner loop `for x2 in 0..9`). -/
def colTargets (y : Nat) : List (Nat × Nat) := (List.range 9).map (fun x2 => (x2, y))

/-- The cells `(x,0), (x,1), …, (x,8)` (the inner loop `for y2 in 0..9`). -/
def rowTargets (x : Nat) : List (Nat × Nat) := (List.range 9).map (fun y2 => (x, y2))

/-- The cells of the 3×3 box with corner `(3*xo, 3*yo)`, in the order of the
nested loops `for x_inner in 0..3 { for y_inner in 0..3 }`. -/
def boxCells (xo yo : Nat) : List (Nat × Nat) :=
  (List.range 3).flatMap (fun xi => (List.range 3).map (fun yi => (xo * 3 + xi, yo * 3 + yi)))

/-- Exclude candidate `v` from every cell of `targets` in order. -/
def excludeAll (targets : List (Nat × Nat)) (v : Nat) (c : Cand) : Cand :=
  targets.foldl (fun c q => excludeCandidate c q.1 q.2 v) c

/-- `UniqueByColumn::visit`: for each solved cell `(x,y)` (outer double loop),
exclude its value from `(x2, y)` for all `x2` — including `(x,y)` itself. -/
def uniqueByColumnVisit (g : Board) (c : Cand) : Cand :=
  allCoords.foldl
    (fun c p => if bget g p.1 p.2 = 0 then c else excludeAll (colTargets p.2) (bget g p.1 p.2) c) c

/-- `UniqueByRow::visit`: for each solved cell `(x,y)`, exclude its value from
`(x, y2)` for all `y2` — including `(x,y)` itself. -/
def uniqueByRowVisit (g : Board) (c : Cand) : Cand :=
  allCoords.foldl
    (fun c p => if bget g p.1 p.2 = 0 then c else excludeAll (rowTargets p.1) (bget g p.1 p.2) c) c

/-- The cell order of `UniqueBy3x3Box`'s four nested loops. -/
def boxOrderCoords : List (Nat × Nat) :=
  (List.range 3).flatMap (fun xo => (List.range 3).flatMap (fun yo => boxCells xo yo))

/-- `UniqueBy3x3Box::visit`: for each solved cell (visited in box order),
exclude its value from every cell of its 3×3 box — including itself.
For `p ∈ boxCells xo yo` we have `p.1 / 3 = xo` and `p.2 / 3 = yo`, so the
box of the loop scope is the box containing `p`. -/
def uniqueBy3x3BoxVisit (g : Board) (c : Cand) : Cand :=
  boxOrderCoords.foldl
    (fun c p =>
      if bget g p.1 p.2 = 0 then c
      else excludeAll (boxCells (p.1 / 3) (p.2 / 3)) (bget g p.1 p.2) c) c

/-- The scan loop shared by the three fill rules: walk `cells` looking for
cells whose mask contains value `n`'s bit; `none` once a second one is found
(`continue 'next_n`), otherwise the unique such cell (or the incoming
accumulator if none is found). -/
def findSolo (c : Cand) (n : Nat) : List (Nat × Nat) → Option (Nat × Nat) → Option (Nat × Nat)
  | [], acc => acc
  | p :: rest, acc =>
    if 0 < bget c p.1 p.2 &&& toCellMask n then
      match acc with
      | some _ => none
      | none => findSolo c n rest (some p)
    else findSolo c n rest acc

/-- One `(region, value)` step of a fill rule: if the scan finds a unique cell
holding value `n`'s bit, set that cell exclusively to `n` and exclude `n`
from every other cell of the region; otherwise do nothing. -/
def fillStep (cells : List (Nat × Nat)) (n : Nat) (c : Cand) : Cand :=
  match findSolo c n cells none with
  | none => c
  | some s =>
    cells.foldl
      (fun c p =>
        if p = s then setExclusiveCandidate c p.1 p.2 n else excludeCandidate c p.1 p.2 n) c

/-- The values `1..=9` scanned by the fill rules. -/
def nineVals : List Nat := (List.range 9).map (· + 1)

/-- The `(index, value)` sequence of the two nested loops `for i in 0..9
{ for n in 1..=9 }` shared by `FillColumnUniquely` and `FillRowUniquely`. -/
def idxValPairs : List (Nat × Nat) :=
  (List.range 9).flatMap (fun i => nineVals.map (fun n => (i, n)))

/-- The `(x_outer, y_outer, n)` sequence of `Fill3x3BoxUniquely`'s loops. -/
def boxValTriples : List (Nat × Nat × Nat) :=
  (List.range 3).flatMap (fun xo => (List.range 3).flatMap
    (fun yo => nineVals.map (fun n => (xo, yo, n))))

/-- `FillColumnUniquely::visit` (ignores the gameboard): for `x in 0..9`,
`n in 1..=9`, run the fill step on the cells `(x, 0..9)`. -/
def fillColumnUniquelyVisit (_g : Board) (c : Cand) : Cand :=
  idxValPairs.foldl (fun c pr => fillStep (rowTargets pr.1) pr.2 c) c

/-- `FillRowUniquely::visit` (ignores the gameboard): for `y in 0..9`,
`n in 1..=9`, run the fill step on the cells `(0..9, y)`. -/
def fillRowUniquelyVisit (_g : Board) (c : Cand) : Cand :=
  idxValPairs.foldl (fun c pr => fillStep (colTargets pr.1) pr.2 c) c

/-- `Fill3x3BoxUniquely::visit` (ignores the gameboard): for each box and
`n in 1..=9`, run the fill step on the box's cells. -/
def fill3x3BoxUniquelyVisit (_g : Board) (c : Cand) : Cand :=
  boxValTriples.foldl (fun c tr => fillStep (boxCells tr.1 tr.2.1) tr.2.2 c) c

/-- One iteration of `main`'s loop body: the seven rule visits in program
order, then `apply_uniques`.  Returns the new gameboard, the new candidate
state, and `apply_uniques`' boolean result. -/
def passOnce (g : Board) (c : Cand) : Board × Cand × Bool :=
  let c1 := excludeWhenSolvedVisit g c
  let c2 := uniqueByColumnVisit g c1
  let c3 := uniqueByRowVisit g c2
  let c4 := uniqueBy3x3BoxVisit g c3
  let c5 := fillColumnUniquelyVisit g c4
  let c6 := fillRowUniquelyVisit g c5
  let c7 := fill3x3BoxUniquelyVisit g c6
  let gb := applyUniques c7 g
  (gb.1, c7, gb.2)

/-- `main`'s loop with explicit fuel: run passes until `apply_uniques`
returns `false` (final `Bool` is `false`, "converged") or the fuel runs out
(final `Bool` is `true`, "still running"). -/
def runLoop : Nat → Board → Cand → Board × Cand × Bool
  | 0, g, c => (g, c, true)
  | n + 1, g, c =>
    let r := passOnce g c
    if r.2.2 then runLoop n r.1 r.2.1 else (r.1, r.2.1, false)

/-- `Candidates::default()`: every mask `511`. -/
def defaultCand : Cand := List.replicate 9 (List.replicate 9 511)

/-- The puzzle hard-coded in `main`. -/
def mainPuzzle : Board :=
  [[0, 0, 0, 0, 8, 0, 0, 0, 0],
   [0, 0, 5, 6, 0, 3, 9, 0, 0],
   [0, 8, 4, 0, 0, 0, 2, 7, 0],
   [0, 3, 0, 1, 0, 0, 0, 5, 0],
   [5, 0, 0, 0, 3, 0, 0, 0, 2],
   [0, 6, 0, 0, 0, 5, 0, 1, 0],
   [0, 1, 9, 0, 0, 0, 5, 6, 0],
   [0, 0, 8, 4, 0, 2, 7, 0, 0],
   [0, 0, 0, 0, 6, 0, 0, 0, 0]]


/-!
### Derived state predicates and region data
-/

/-- `a`'s set bits are a subset of `b`'s set bits. -/
def subBits (a b : Nat) : Prop := ∀ i, a.testBit i = true → b.testBit i = true

/-- Pointwise mask inclusion between candidate states: every bit still set in
`c'` was already set in `c` (the candidate state only narrows). -/
def CandLE (c' c : Cand) : Prop :=
  ∀ a b, a < 9 → b < 9 → subBits (bget c' a b) (bget c a b)

/-- Some in-range cell has exactly one remaining candidate. -/
def hasSingle (c : Cand) : Prop := ∃ p ∈ allCoords, countOnes16 (bget c p.1 p.2) = 1

instance : DecidablePred hasSingle := fun _ => List.decidableBEx _ allCoords

/-- Number of solved (non-zero) cells of the grid. -/
def nzCount (g : Board) : Nat := (allCoords.filter (fun p => bget g p.1 p.2 != 0)).length

/-- Union of the value bits of the solved cells of `L` selected by `hits`. -/
def contribMask (g : Board) (hits : Nat × Nat → Bool) : List (Nat × Nat) → Nat
  | [] => 0
  | p :: rest =>
    (if bget g p.1 p.2 ≠ 0 ∧ hits p = true then toCellMask (bget g p.1 p.2) else 0) |||
      contribMask g hits rest

/-- Bits of all solved values in column `b` of `g`. -/
def colSolvedMask (g : Board) (b : Nat) : Nat := contribMask g (fun p => p.2 == b) allCoords

/-- Bits of all solved values in row `a` of `g`. -/
def rowSolvedMask (g : Board) (a : Nat) : Nat := contribMask g (fun p => p.1 == a) allCoords

/-- Bits of all solved values in the 3×3 box containing `(a, b)`. -/
def boxSolvedMask (g : Board) (a b : Nat) : Nat :=
  contribMask g (fun p => p.1 / 3 == a / 3 && p.2 / 3 == b / 3) boxOrderCoords

/-!
### Bit-level lemmas
-/

theorem toCellMask_eq_pow (v : Nat) : toCellMask v = 2 ^ (v - 1) := by
  simp [toCellMask, Nat.shiftLeft_eq]

theorem subBits_refl (a : Nat) : subBits a a := fun _ h => h

theorem subBits_trans {a b c : Nat} (h1 : subBits a b) (h2 : subBits b c) : subBits a c :=
  fun i h => h2 i (h1 i h)

theorem subBits_land_left (m k : Nat) : subBits (m &&& k) m := by
  intro i h
  rw [Nat.testBit_and] at h
  simp at h
  exact h.1

theorem subBits_zero (m : Nat) : subBits 0 m := by
  intro i h
  simp [Nat.zero_testBit] at h

theorem testBit_of_land_pow_pos {m k : Nat} (h : 0 < m &&& 2 ^ k) : m.testBit k = true := by
  by_contra hm
  apply Nat.lt_irrefl 0
  have : m &&& 2 ^ k = 0 := by
    apply Nat.eq_of_testBit_eq
    intro i
    rw [Nat.testBit_and, Nat.zero_testBit]
    rcases eq_or_ne k i with rfl | hne
    · simp [Bool.eq_false_iff.mpr hm]
    · simp [Nat.testBit_two_pow_of_ne hne]
  rwa [this] at h

theorem subBits_pow {m k : Nat} (h : m.testBit k = true) : subBits (2 ^ k) m := by
  intro i hi
  rcases eq_or_ne k i with rfl | hne
  · exact h
  · simp [Nat.testBit_two_pow_of_ne hne] at hi

theorem filter_length_mono {α : Type} (p q : α → Bool) :
    ∀ l : List α, (∀ a ∈ l, p a = true → q a = true) →
      (l.filter p).length ≤ (l.filter q).length := by
  intro l
  induction l with
  | nil => intro _; simp
  | cons x rest ih =>
    intro h
    have hr := ih (fun a ha => h a (List.mem_cons_of_mem _ ha))
    by_cases hp : p x = true
    · have hq := h x (List.mem_cons_self _ _) hp
      simp [List.filter_cons, hp, hq]
      omega
    · have hp' : p x = false := Bool.eq_false_iff.mpr hp
      by_cases hq : q x = true
      · simp [List.filter_cons, hp', hq]
        omega
      · have hq' : q x = false := Bool.eq_false_iff.mpr hq
        simp [List.filter_cons, hp', hq']
        omega

theorem countOnes16_mono {a b : Nat} (h : subBits a b) : countOnes16 a ≤ countOnes16 b := by
  exact filter_length_mono _ _ (List.range 16) (fun i _ hi => h i hi)

theorem countOnes16_pos {m : Nat} (h : 0 < countOnes16 m) :
    ∃ i, i < 16 ∧ m.testBit i = true := by
  unfold countOnes16 at h
  rcases List.exists_mem_of_length_pos h with ⟨i, hi⟩
  rcases List.mem_filter.mp hi with ⟨hr, hb⟩
  exact ⟨i, List.mem_range.mp hr, by simpa using hb⟩

theorem land_absorb (m k : Nat) : m &&& k &&& k = m &&& k := by
  apply Nat.eq_of_testBit_eq
  intro i
  simp [Nat.testBit_and, Bool.and_assoc]

theorem u16_land_max {m : Nat} (h : m < 65536) : m &&& 65535 = m := by
  apply Nat.eq_of_testBit_eq
  intro i
  rw [Nat.testBit_and]
  by_cases hi : i < 16
  · have : (65535 : Nat).testBit i = true := by
      have : (65535 : Nat) = 2 ^ 16 - 1 := by norm_num
      rw [this, Nat.testBit_two_pow_sub_one]
      simpa using hi
    simp [this]
  · have hm : m.testBit i = false := by
      apply Nat.testBit_lt_two_pow
      calc m < 65536 := h
        _ = 2 ^ 16 := by norm_num
        _ ≤ 2 ^ i := Nat.pow_le_pow_right (by norm_num) (by omega)
    simp [hm]

theorem u16_demorgan {a b : Nat} (ha : a < 65536) (hb : b < 65536) :
    (65535 ^^^ a) &&& (65535 ^^^ b) = 65535 ^^^ (a ||| b) := by
  have h16 : (65535 : Nat) = 2 ^ 16 - 1 := by norm_num
  apply Nat.eq_of_testBit_eq
  intro i
  rw [Nat.testBit_and, Nat.testBit_xor, Nat.testBit_xor, Nat.testBit_xor, Nat.testBit_or]
  by_cases hi : i < 16
  · have : (65535 : Nat).testBit i = true := by
      rw [h16, Nat.testBit_two_pow_sub_one]; simpa using hi
    rw [this]
    cases a.testBit i <;> cases b.testBit i <;> rfl
  · have hh : 2 ^ 16 ≤ 2 ^ i := Nat.pow_le_pow_right (by norm_num) (by omega)
    have h1 : a.testBit i = false := Nat.testBit_lt_two_pow (by omega)
    have h2 : b.testBit i = false := Nat.testBit_lt_two_pow (by omega)
    have h3 : (65535 : Nat).testBit i = false := Nat.testBit_lt_two_pow (by omega)
    rw [h1, h2, h3]
    rfl

theorem lor_eq_of_sub {a b : Nat} (h : subBits a b) : b ||| a = b := by
  apply Nat.eq_of_testBit_eq
  intro i
  rw [Nat.testBit_or]
  cases ha : a.testBit i
  · simp
  · simp [h i ha]

/-!
### Board access lemmas
-/

theorem getD_set_self {α : Type} {l : List α} {i : Nat} (h : i < l.length) (a d : α) :
    (l.set i a).getD i d = a := by
  rw [List.getD_eq_getElem?_getD, List.getElem?_set_self h]
  rfl

theorem getD_set_ne {α : Type} {l : List α} {i j : Nat} (h : i ≠ j) (a d : α) :
    (l.set i a).getD j d = l.getD j d := by
  rw [List.getD_eq_getElem?_getD, List.getElem?_set_ne h, ← List.getD_eq_getElem?_getD]

theorem getD_oob {α : Type} {l : List α} {i : Nat} (h : l.length ≤ i) (d : α) :
    l.getD i d = d := by
  rw [List.getD_eq_getElem?_getD, List.getElem?_eq_none h]
  rfl

theorem bget_bset_self {b : Board} {x y : Nat} (hb : WF b) (hx : x < 9) (hy : y < 9) (v : Nat) :
    bget (bset b x y v) x y = v := by
  have hxlen : x < b.length := by rw [hb.1]; exact hx
  have hylen : y < (b.getD x []).length := by rw [hb.2 x hx]; exact hy
  unfold bget bset
  rw [getD_set_self hxlen, getD_set_self hylen]

theorem bset_oob {b : Board} {x : Nat} (h : b.length ≤ x) (y v : Nat) : bset b x y v = b := by
  unfold bset
  exact List.set_eq_of_length_le h

theorem bget_bset_ne {c : Board} {x y a b : Nat} (h : x ≠ a ∨ y ≠ b) (v : Nat) :
    bget (bset c x y v) a b = bget c a b := by
  rcases Nat.lt_or_ge x c.length with hx | hx
  · by_cases hxa : x = a
    · subst hxa
      rcases h with h | h
      · exact absurd rfl h
      · unfold bget bset
        rw [getD_set_self hx, getD_set_ne h]
    · unfold bget bset
      rw [getD_set_ne hxa]
  · rw [bset_oob hx]

theorem WF_bset {b : Board} (hb : WF b) (x y v : Nat) : WF (bset b x y v) := by
  constructor
  · unfold bset
    rw [List.length_set]
    exact hb.1
  · intro i hi
    by_cases hxi : x = i
    · subst hxi
      have hxlen : x < b.length := by rw [hb.1]; exact hi
      unfold bset
      rw [getD_set_self hxlen, List.length_set]
      exact hb.2 x hi
    · unfold bset
      rw [getD_set_ne hxi]
      exact hb.2 i hi

theorem boardExt {b1 b2 : Board} (h1 : WF b1) (h2 : WF b2)
    (h : ∀ x, x < 9 → ∀ y, y < 9 → bget b1 x y = bget b2 x y) : b1 = b2 := by
  apply List.ext_getElem (by rw [h1.1, h2.1])
  intro x hx1 hx2
  have hx9 : x < 9 := by rw [← h1.1]; exact hx1
  have hrow1 : b1[x] = b1.getD x [] := by
    rw [List.getD_eq_getElem?_getD, List.getElem?_eq_getElem hx1]
    rfl
  have hrow2 : b2[x] = b2.getD x [] := by
    rw [List.getD_eq_getElem?_getD, List.getElem?_eq_getElem hx2]
    rfl
  have hlen1 : b1[x].length = 9 := by rw [hrow1]; exact h1.2 x hx9
  have hlen2 : b2[x].length = 9 := by rw [hrow2]; exact h2.2 x hx9
  apply List.ext_getElem (by rw [hlen1, hlen2])
  intro y hy1 hy2
  have hy9 : y < 9 := by rw [← hlen1]; exact hy1
  have e1 : b1[x][y] = bget b1 x y := by
    unfold bget
    rw [← hrow1, List.getD_eq_getElem?_getD, List.getElem?_eq_getElem hy1]
    rfl
  have e2 : b2[x][y] = bget b2 x y := by
    unfold bget
    rw [← hrow2, List.getD_eq_getElem?_getD, List.getElem?_eq_getElem hy2]
    rfl
  rw [e1, e2]
  exact h x hx9 y hy9

theorem bget_oob {b : Board} (hb : WF b) {x y : Nat} (h : 9 ≤ x ∨ 9 ≤ y) : bget b x y = 0 := by
  rcases h with h | h
  · unfold bget
    rw [getD_oob (show b.length ≤ x by rw [hb.1]; omega)]
    simp
  · rcases Nat.lt_or_ge x 9 with hx | hx
    · unfold bget
      rw [getD_oob (show (b.getD x []).length ≤ y by rw [hb.2 x hx]; omega)]
    · unfold bget
      rw [getD_oob (show b.length ≤ x by rw [hb.1]; omega)]
      simp

/-- A fold preserves any invariant its step preserves. -/
theorem foldl_inv {σ α : Type} {P : σ → Prop} (f : σ → α → σ)
    (hf : ∀ s a, P s → P (f s a)) : ∀ (l : List α) (s : σ), P s → P (l.foldl f s) := by
  intro l
  induction l with
  | nil => intro s h; exact h
  | cons a rest ih => intro s h; exact ih (f s a) (hf s a h)

/-!
### Region membership facts
-/

theorem mem_allCoords {u w : Nat} : (u, w) ∈ allCoords ↔ u < 9 ∧ w < 9 := by
  simp only [allCoords, List.mem_flatMap, List.mem_map, List.mem_range]
  constructor
  · rintro ⟨x, hx, y, hy, he⟩
    cases he
    exact ⟨hx, hy⟩
  · rintro ⟨hu, hw⟩
    exact ⟨u, hu, w, hw, rfl⟩

theorem mem_colTargets {u w y : Nat} : (u, w) ∈ colTargets y ↔ u < 9 ∧ w = y := by
  simp only [colTargets, List.mem_map, List.mem_range]
  constructor
  · rintro ⟨x2, hx2, he⟩
    cases he
    exact ⟨hx2, rfl⟩
  · rintro ⟨hu, rfl⟩
    exact ⟨u, hu, rfl⟩

theorem mem_rowTargets {u w x : Nat} : (u, w) ∈ rowTargets x ↔ u = x ∧ w < 9 := by
  simp only [rowTargets, List.mem_map, List.mem_range]
  constructor
  · rintro ⟨y2, hy2, he⟩
    cases he
    exact ⟨rfl, hy2⟩
  · rintro ⟨rfl, hw⟩
    exact ⟨w, hw, rfl⟩

theorem mem_boxCells {u w xo yo : Nat} :
    (u, w) ∈ boxCells xo yo ↔ u / 3 = xo ∧ w / 3 = yo := by
  simp only [boxCells, List.mem_flatMap, List.mem_map, List.mem_range]
  constructor
  · rintro ⟨xi, hxi, yi, hyi, he⟩
    cases he
    omega
  · rintro ⟨hu, hw⟩
    exact ⟨u % 3, by omega, w % 3, by omega, by simp [Prod.ext_iff]; omega⟩

theorem mem_boxOrderCoords {u w : Nat} : (u, w) ∈ boxOrderCoords ↔ u < 9 ∧ w < 9 := by
  simp only [boxOrderCoords, List.mem_flatMap, List.mem_range]
  constructor
  · rintro ⟨xo, hxo, yo, hyo, hm⟩
    rw [mem_boxCells] at hm
    omega
  · rintro ⟨hu, hw⟩
    refine ⟨u / 3, by omega, w / 3, by omega, ?_⟩
    rw [mem_boxCells]
    exact ⟨rfl, rfl⟩

/-!
### Well-formedness preservation and the pointwise effect of `excludeAll`
-/

theorem WF_excludeCandidate {c : Cand} (hc : WF c) (x y v : Nat) :
    WF (excludeCandidate c x y v) := WF_bset hc x y _

theorem WF_setExclusiveCandidate {c : Cand} (hc : WF c) (x y v : Nat) :
    WF (setExclusiveCandidate c x y v) := WF_bset hc x y _

theorem WF_markAsSolved {c : Cand} (hc : WF c) (x y : Nat) :
    WF (markAsSolved c x y) := WF_bset hc x y _

theorem WF_excludeAll {c : Cand} (hc : WF c) (T : List (Nat × Nat)) (v : Nat) :
    WF (excludeAll T v c) :=
  foldl_inv (P := WF) _ (fun _ q h => WF_excludeCandidate h q.1 q.2 v) T c hc

theorem land_left_comm (m k1 k2 : Nat) : m &&& k1 &&& k2 = m &&& k2 &&& k1 := by
  rw [Nat.land_assoc, Nat.land_assoc, Nat.land_comm k1 k2]

theorem excludeAll_bget (v : Nat) :
    ∀ (T : List (Nat × Nat)) (c : Cand), WF c → (∀ q ∈ T, q.1 < 9 ∧ q.2 < 9) →
      ∀ a b, a < 9 → b < 9 →
        bget (excludeAll T v c) a b =
          if (a, b) ∈ T then bget c a b &&& (65535 ^^^ toCellMask v) else bget c a b := by
  intro T
  induction T with
  | nil => intro c _ _ a b _ _; simp [excludeAll]
  | cons q rest ih =>
    intro c hc hT a b ha hb
    have hq := hT q (List.mem_cons_self _ _)
    have hstep : excludeAll (q :: rest) v c = excludeAll rest v (excludeCandidate c q.1 q.2 v) := by
      simp [excludeAll]
    have hc' : WF (excludeCandidate c q.1 q.2 v) := WF_excludeCandidate hc q.1 q.2 v
    rw [hstep, ih _ hc' (fun r hr => hT r (List.mem_cons_of_mem _ hr)) a b ha hb]
    by_cases hqe : (a, b) = q
    · have hsame : bget (excludeCandidate c q.1 q.2 v) a b =
          bget c a b &&& (65535 ^^^ toCellMask v) := by
        rw [← hqe]
        exact bget_bset_self hc ha hb _
      have hmemc : (a, b) ∈ q :: rest := by rw [hqe]; exact List.mem_cons_self _ _
      by_cases hmem : (a, b) ∈ rest
      · rw [if_pos hmem, if_pos hmemc, hsame, land_absorb]
      · rw [if_neg hmem, if_pos hmemc, hsame]
    · have hne : q.1 ≠ a ∨ q.2 ≠ b := by
        by_contra hcon
        push_neg at hcon
        exact hqe (by rw [← hcon.1, ← hcon.2])
      have hsame : bget (excludeCandidate c q.1 q.2 v) a b = bget c a b := bget_bset_ne hne _
      have hq' : ((a, b) ∈ q :: rest) ↔ ((a, b) ∈ rest) := by
        simp [List.mem_cons, hqe]
      rw [hsame]
      by_cases hmem : (a, b) ∈ rest
      · simp [hq', hmem]
      · simp [hq', hmem]

theorem mem_allCoords_fst_snd {p : Nat × Nat} : p ∈ allCoords ↔ p.1 < 9 ∧ p.2 < 9 := by
  cases p
  exact mem_allCoords

theorem toCellMask_lt {v : Nat} (h : v ≤ 16) : toCellMask v < 65536 := by
  rw [toCellMask_eq_pow]
  calc 2 ^ (v - 1) ≤ 2 ^ 15 := Nat.pow_le_pow_right (by norm_num) (by omega)
    _ < 65536 := by norm_num

theorem contribMask_lt (g : Board) (hits : Nat × Nat → Bool) :
    ∀ L : List (Nat × Nat), (∀ p ∈ L, bget g p.1 p.2 ≤ 9) → contribMask g hits L < 65536 := by
  intro L
  induction L with
  | nil => intro _; simp [contribMask]
  | cons p rest ih =>
    intro h
    have hrest := ih (fun q hq => h q (List.mem_cons_of_mem _ hq))
    have hp := h p (List.mem_cons_self _ _)
    rw [contribMask]
    have h16 : (65536 : Nat) = 2 ^ 16 := by norm_num
    rw [h16]
    apply Nat.or_lt_two_pow _ (by rw [← h16]; exact hrest)
    by_cases hcond : bget g p.1 p.2 ≠ 0 ∧ hits p = true
    · rw [if_pos hcond, ← h16]
      exact toCellMask_lt (by omega)
    · rw [if_neg hcond]
      positivity

theorem triggersFold_bget (g : Board) (Tf : Nat × Nat → List (Nat × Nat))
    (hits : Nat × Nat → Bool) (a b : Nat) (ha : a < 9) (hb : b < 9) :
    ∀ (L : List (Nat × Nat)) (c : Cand), WF c →
      (∀ p ∈ L, bget g p.1 p.2 ≤ 9) →
      (∀ p ∈ L, ((a, b) ∈ Tf p ↔ hits p = true)) →
      (∀ p ∈ L, ∀ q ∈ Tf p, q.1 < 9 ∧ q.2 < 9) →
      bget c a b < 65536 →
      bget (L.foldl (fun c p => if bget g p.1 p.2 = 0 then c
          else excludeAll (Tf p) (bget g p.1 p.2) c) c) a b
        = bget c a b &&& (65535 ^^^ contribMask g hits L) := by
  intro L
  induction L with
  | nil =>
    intro c _ _ _ _ hm
    simp [contribMask, u16_land_max hm]
  | cons p rest ih =>
    intro c hc hv hmem hTwf hm
    have hvrest := fun q hq => hv q (List.mem_cons_of_mem _ hq)
    have hmemrest := fun q hq => hmem q (List.mem_cons_of_mem _ hq)
    have hTwfrest := fun q hq => hTwf q (List.mem_cons_of_mem _ hq)
    have hvp := hv p (List.mem_cons_self _ _)
    rw [List.foldl_cons]
    by_cases hs : bget g p.1 p.2 = 0
    · rw [if_pos hs, ih c hc hvrest hmemrest hTwfrest hm, contribMask]
      rw [if_neg (by simp [hs]), Nat.zero_or]
    · rw [if_neg hs]
      have hTp := hTwf p (List.mem_cons_self _ _)
      have heq := excludeAll_bget (bget g p.1 p.2) (Tf p) c hc hTp a b ha hb
      have hc' : WF (excludeAll (Tf p) (bget g p.1 p.2) c) := WF_excludeAll hc _ _
      have hm' : bget (excludeAll (Tf p) (bget g p.1 p.2) c) a b < 65536 := by
        rw [heq]
        by_cases hmm : (a, b) ∈ Tf p
        · rw [if_pos hmm]
          exact Nat.lt_of_le_of_lt Nat.and_le_left hm
        · rw [if_neg hmm]
          exact hm
      rw [ih _ hc' hvrest hmemrest hTwfrest hm', heq, contribMask]
      by_cases hh : hits p = true
      · have hmm : (a, b) ∈ Tf p := (hmem p (List.mem_cons_self _ _)).mpr hh
        rw [if_pos hmm, if_pos ⟨hs, hh⟩, Nat.land_assoc,
          u16_demorgan (toCellMask_lt (by omega)) (contribMask_lt g hits rest hvrest)]
      · have hmm : (a, b) ∉ Tf p := fun hcon => hh ((hmem p (List.mem_cons_self _ _)).mp hcon)
        rw [if_neg hmm, if_neg (by rintro ⟨_, hh2⟩; exact hh hh2), Nat.zero_or]

theorem uniqueByColumnVisit_bget {g c : Board} {a b : Nat} (hc : WF c)
    (hv : ∀ x y, bget g x y ≤ 9) (ha : a < 9) (hb : b < 9) (hm : bget c a b < 65536) :
    bget (uniqueByColumnVisit g c) a b = bget c a b &&& (65535 ^^^ colSolvedMask g b) := by
  unfold uniqueByColumnVisit colSolvedMask
  apply triggersFold_bget g (fun p => colTargets p.2) (fun p => p.2 == b) a b ha hb allCoords c hc
    (fun p _ => hv p.1 p.2) _ _ hm
  · intro p _
    rw [mem_colTargets]
    simp only [beq_iff_eq]
    constructor
    · rintro ⟨_, h⟩
      exact h.symm
    · intro h
      exact ⟨ha, h.symm⟩
  · intro p hp q hq
    rw [mem_colTargets] at hq
    have hp2 : p.2 < 9 := (mem_allCoords_fst_snd.mp hp).2
    omega

theorem uniqueByRowVisit_bget {g c : Board} {a b : Nat} (hc : WF c)
    (hv : ∀ x y, bget g x y ≤ 9) (ha : a < 9) (hb : b < 9) (hm : bget c a b < 65536) :
    bget (uniqueByRowVisit g c) a b = bget c a b &&& (65535 ^^^ rowSolvedMask g a) := by
  unfold uniqueByRowVisit rowSolvedMask
  apply triggersFold_bget g (fun p => rowTargets p.1) (fun p => p.1 == a) a b ha hb allCoords c hc
    (fun p _ => hv p.1 p.2) _ _ hm
  · intro p _
    rw [mem_rowTargets]
    simp only [beq_iff_eq]
    constructor
    · rintro ⟨h, _⟩
      exact h.symm
    · intro h
      exact ⟨h.symm, hb⟩
  · intro p hp q hq
    rw [mem_rowTargets] at hq
    have hp1 : p.1 < 9 := (mem_allCoords_fst_snd.mp hp).1
    omega

theorem uniqueBy3x3BoxVisit_bget {g c : Board} {a b : Nat} (hc : WF c)
    (hv : ∀ x y, bget g x y ≤ 9) (ha : a < 9) (hb : b < 9) (hm : bget c a b < 65536) :
    bget (uniqueBy3x3BoxVisit g c) a b = bget c a b &&& (65535 ^^^ boxSolvedMask g a b) := by
  unfold uniqueBy3x3BoxVisit boxSolvedMask
  apply triggersFold_bget g (fun p => boxCells (p.1 / 3) (p.2 / 3))
    (fun p => p.1 / 3 == a / 3 && p.2 / 3 == b / 3) a b ha hb boxOrderCoords c hc ?_ _ _ hm
  · intro p hp
    cases p
    rw [mem_boxOrderCoords] at hp
    exact hv _ _
  · intro p _
    rw [mem_boxCells]
    simp only [Bool.and_eq_true, beq_iff_eq]
    constructor
    · rintro ⟨h1, h2⟩
      exact ⟨h1.symm, h2.symm⟩
    · rintro ⟨h1, h2⟩
      exact ⟨h1.symm, h2.symm⟩
  · intro p hp q hq
    rw [mem_boxCells] at hq
    have hp' : p.1 < 9 ∧ p.2 < 9 := by
      cases p
      exact mem_boxOrderCoords.mp hp
    omega

/-!
### `ExcludeWhenSolved` closed form and well-formedness of the visits
-/

theorem exclFold_bget (g : Board) {a b : Nat} (ha : a < 9) (hb : b < 9) :
    ∀ (L : List (Nat × Nat)) (c : Cand), WF c → (∀ p ∈ L, p.1 < 9 ∧ p.2 < 9) →
      bget (L.foldl (fun c p => if bget g p.1 p.2 = 0 then c else markAsSolved c p.1 p.2) c) a b
        = if (a, b) ∈ L ∧ bget g a b ≠ 0 then 0 else bget c a b := by
  intro L
  induction L with
  | nil => intro c _ _; simp
  | cons p rest ih =>
    intro c hc hL
    have hLrest := fun q hq => hL q (List.mem_cons_of_mem _ hq)
    rw [List.foldl_cons]
    by_cases hab : (a, b) = p
    · subst hab
      by_cases hs : bget g a b = 0
      · rw [if_pos hs, ih c hc hLrest]
        rw [if_neg (by rintro ⟨_, hn⟩; exact hn hs),
          if_neg (by rintro ⟨_, hn⟩; exact hn hs)]
      · rw [if_neg hs, ih _ (WF_markAsSolved hc _ _) hLrest]
        have hself : bget (markAsSolved c a b) a b = 0 := bget_bset_self hc ha hb 0
        by_cases hmem : (a, b) ∈ rest ∧ bget g a b ≠ 0
        · rw [if_pos hmem, if_pos ⟨List.mem_cons_self _ _, hs⟩]
        · rw [if_neg hmem, hself, if_pos ⟨List.mem_cons_self _ _, hs⟩]
    · have hne : p.1 ≠ a ∨ p.2 ≠ b := by
        by_contra hcon
        push_neg at hcon
        exact hab (by rw [← hcon.1, ← hcon.2])
      have hmemiff : ((a, b) ∈ p :: rest) ↔ ((a, b) ∈ rest) := by simp [List.mem_cons, hab]
      by_cases hs : bget g p.1 p.2 = 0
      · rw [if_pos hs, ih c hc hLrest]
        by_cases hmem : (a, b) ∈ rest ∧ bget g a b ≠ 0
        · rw [if_pos hmem, if_pos ⟨hmemiff.mpr hmem.1, hmem.2⟩]
        · rw [if_neg hmem, if_neg (by rintro ⟨h1, h2⟩; exact hmem ⟨hmemiff.mp h1, h2⟩)]
      · rw [if_neg hs, ih _ (WF_markAsSolved hc _ _) hLrest]
        have hsame : bget (markAsSolved c p.1 p.2) a b = bget c a b := bget_bset_ne hne 0
        by_cases hmem : (a, b) ∈ rest ∧ bget g a b ≠ 0
        · rw [if_pos hmem, if_pos ⟨hmemiff.mpr hmem.1, hmem.2⟩]
        · rw [if_neg hmem, hsame,
            if_neg (by rintro ⟨h1, h2⟩; exact hmem ⟨hmemiff.mp h1, h2⟩)]

theorem excludeWhenSolvedVisit_bget {g c : Board} {a b : Nat} (hc : WF c)
    (ha : a < 9) (hb : b < 9) :
    bget (excludeWhenSolvedVisit g c) a b = if bget g a b = 0 then bget c a b else 0 := by
  unfold excludeWhenSolvedVisit
  rw [exclFold_bget g ha hb allCoords c hc (fun p hp => mem_allCoords_fst_snd.mp hp)]
  by_cases hs : bget g a b = 0
  · rw [if_pos hs, if_neg (by rintro ⟨_, h⟩; exact h hs)]
  · rw [if_neg hs, if_pos ⟨mem_allCoords.mpr ⟨ha, hb⟩, hs⟩]

theorem WF_excludeWhenSolvedVisit {g c : Board} (hc : WF c) : WF (excludeWhenSolvedVisit g c) := by
  unfold excludeWhenSolvedVisit
  apply foldl_inv (P := WF) _ _ allCoords c hc
  intro c p h
  by_cases hs : bget g p.1 p.2 = 0
  · rwa [if_pos hs]
  · rw [if_neg hs]
    exact WF_markAsSolved h p.1 p.2

theorem WF_uniqueByColumnVisit {g c : Board} (hc : WF c) : WF (uniqueByColumnVisit g c) := by
  unfold uniqueByColumnVisit
  apply foldl_inv (P := WF) _ _ allCoords c hc
  intro c p h
  by_cases hs : bget g p.1 p.2 = 0
  · rwa [if_pos hs]
  · rw [if_neg hs]
    exact WF_excludeAll h _ _

theorem WF_uniqueByRowVisit {g c : Board} (hc : WF c) : WF (uniqueByRowVisit g c) := by
  unfold uniqueByRowVisit
  apply foldl_inv (P := WF) _ _ allCoords c hc
  intro c p h
  by_cases hs : bget g p.1 p.2 = 0
  · rwa [if_pos hs]
  · rw [if_neg hs]
    exact WF_excludeAll h _ _

theorem WF_uniqueBy3x3BoxVisit {g c : Board} (hc : WF c) : WF (uniqueBy3x3BoxVisit g c) := by
  unfold uniqueBy3x3BoxVisit
  apply foldl_inv (P := WF) _ _ boxOrderCoords c hc
  intro c p h
  by_cases hs : bget g p.1 p.2 = 0
  · rwa [if_pos hs]
  · rw [if_neg hs]
    exact WF_excludeAll h _ _

theorem WF_fillStep {c : Cand} (hc : WF c) (cells : List (Nat × Nat)) (n : Nat) :
    WF (fillStep cells n c) := by
  unfold fillStep
  cases h : findSolo c n cells none with
  | none => exact hc
  | some s =>
    apply foldl_inv (P := WF) _ _ cells c hc
    intro c p h
    by_cases hps : p = s
    · rw [if_pos hps]
      exact WF_setExclusiveCandidate h p.1 p.2 n
    · rw [if_neg hps]
      exact WF_excludeCandidate h p.1 p.2 n

theorem WF_fillColumnUniquelyVisit {g : Board} {c : Cand} (hc : WF c) :
    WF (fillColumnUniquelyVisit g c) := by
  unfold fillColumnUniquelyVisit
  exact foldl_inv (P := WF) _ (fun c pr h => WF_fillStep h _ _) _ c hc

theorem WF_fillRowUniquelyVisit {g : Board} {c : Cand} (hc : WF c) :
    WF (fillRowUniquelyVisit g c) := by
  unfold fillRowUniquelyVisit
  exact foldl_inv (P := WF) _ (fun c pr h => WF_fillStep h _ _) _ c hc

theorem WF_fill3x3BoxUniquelyVisit {g : Board} {c : Cand} (hc : WF c) :
    WF (fill3x3BoxUniquelyVisit g c) := by
  unfold fill3x3BoxUniquelyVisit
  exact foldl_inv (P := WF) _ (fun c tr h => WF_fillStep h _ _) _ c hc

/-!
### `findSolo` facts
-/

theorem findSolo_cons_none (c : Cand) (n : Nat) (p : Nat × Nat) (rest : List (Nat × Nat)) :
    findSolo c n (p :: rest) none =
      if 0 < bget c p.1 p.2 &&& toCellMask n then findSolo c n rest (some p)
      else findSolo c n rest none := rfl

theorem findSolo_cons_some (c : Cand) (n : Nat) (p a : Nat × Nat) (rest : List (Nat × Nat)) :
    findSolo c n (p :: rest) (some a) =
      if 0 < bget c p.1 p.2 &&& toCellMask n then none
      else findSolo c n rest (some a) := rfl

theorem findSolo_some (c : Cand) (n : Nat) :
    ∀ (l : List (Nat × Nat)) (acc : Option (Nat × Nat)) (s : Nat × Nat),
      findSolo c n l acc = some s →
      (s ∈ l ∧ 0 < bget c s.1 s.2 &&& toCellMask n) ∨ acc = some s := by
  intro l
  induction l with
  | nil => intro acc s h; right; exact h
  | cons p rest ih =>
    intro acc s h
    by_cases hbit : 0 < bget c p.1 p.2 &&& toCellMask n
    · cases acc with
      | some a =>
        rw [findSolo_cons_some, if_pos hbit] at h
        exact absurd h (by simp)
      | none =>
        rw [findSolo_cons_none, if_pos hbit] at h
        rcases ih (some p) s h with ⟨hm, hb⟩ | hacc
        · exact Or.inl ⟨List.mem_cons_of_mem _ hm, hb⟩
        · have : p = s := by injection hacc
          subst this
          exact Or.inl ⟨List.mem_cons_self _ _, hbit⟩
    · cases acc with
      | some a =>
        rw [findSolo_cons_some, if_neg hbit] at h
        rcases ih (some a) s h with ⟨hm, hb⟩ | hacc
        · exact Or.inl ⟨List.mem_cons_of_mem _ hm, hb⟩
        · exact Or.inr hacc
      | none =>
        rw [findSolo_cons_none, if_neg hbit] at h
        rcases ih none s h with ⟨hm, hb⟩ | hacc
        · exact Or.inl ⟨List.mem_cons_of_mem _ hm, hb⟩
        · exact Or.inr hacc

theorem findSolo_no_bit (c : Cand) (n : Nat) :
    ∀ (l : List (Nat × Nat)) (acc : Option (Nat × Nat)),
      (∀ q ∈ l, ¬0 < bget c q.1 q.2 &&& toCellMask n) → findSolo c n l acc = acc := by
  intro l
  induction l with
  | nil => intro acc _; rfl
  | cons p rest ih =>
    intro acc h
    have hrest := fun q hq => h q (List.mem_cons_of_mem _ hq)
    cases acc with
    | some a =>
      rw [findSolo_cons_some, if_neg (h p (List.mem_cons_self _ _))]
      exact ih _ hrest
    | none =>
      rw [findSolo_cons_none, if_neg (h p (List.mem_cons_self _ _))]
      exact ih _ hrest

theorem findSolo_unique (c : Cand) (n : Nat) :
    ∀ (l : List (Nat × Nat)), l.Nodup → ∀ s : Nat × Nat, s ∈ l →
      0 < bget c s.1 s.2 &&& toCellMask n →
      (∀ q ∈ l, q ≠ s → ¬0 < bget c q.1 q.2 &&& toCellMask n) →
      findSolo c n l none = some s := by
  intro l
  induction l with
  | nil => intro _ s hs; exact absurd hs (by simp)
  | cons p rest ih =>
    intro hnd s hs hbit hq
    rcases List.mem_cons.mp hs with rfl | hrest
    · rw [findSolo_cons_none, if_pos hbit]
      apply findSolo_no_bit
      intro q hqr
      apply hq q (List.mem_cons_of_mem _ hqr)
      intro hqs
      subst hqs
      exact (List.nodup_cons.mp hnd).1 hqr
    · have hps : p ≠ s := by
        intro hcon
        subst hcon
        exact (List.nodup_cons.mp hnd).1 hrest
      rw [findSolo_cons_none, if_neg (hq p (List.mem_cons_self _ _) hps)]
      exact ih (List.nodup_cons.mp hnd).2 s hrest hbit
        (fun q hqr hqs => hq q (List.mem_cons_of_mem _ hqr) hqs)

theorem findSolo_some_acc_none (c : Cand) (n : Nat) :
    ∀ (l : List (Nat × Nat)) (a : Nat × Nat), (∃ q ∈ l, 0 < bget c q.1 q.2 &&& toCellMask n) →
      findSolo c n l (some a) = none := by
  intro l
  induction l with
  | nil => rintro a ⟨q, hq, _⟩; exact absurd hq (by simp)
  | cons p rest ih =>
    rintro a ⟨q, hq, hbit⟩
    by_cases hbp : 0 < bget c p.1 p.2 &&& toCellMask n
    · rw [findSolo_cons_some, if_pos hbp]
    · rw [findSolo_cons_some, if_neg hbp]
      rcases List.mem_cons.mp hq with rfl | hrest
      · exact absurd hbit hbp
      · exact ih a ⟨q, hrest, hbit⟩

theorem findSolo_two (c : Cand) (n : Nat) :
    ∀ (l : List (Nat × Nat)) (q1 q2 : Nat × Nat), q1 ∈ l → q2 ∈ l → q1 ≠ q2 →
      0 < bget c q1.1 q1.2 &&& toCellMask n → 0 < bget c q2.1 q2.2 &&& toCellMask n →
      findSolo c n l none = none := by
  intro l
  induction l with
  | nil => intro q1 q2 h1; exact absurd h1 (by simp)
  | cons p rest ih =>
    intro q1 q2 h1 h2 hne hb1 hb2
    by_cases hbp : 0 < bget c p.1 p.2 &&& toCellMask n
    · rw [findSolo_cons_none, if_pos hbp]
      apply findSolo_some_acc_none
      rcases List.mem_cons.mp h1 with rfl | hr1
      · rcases List.mem_cons.mp h2 with rfl | hr2
        · exact absurd rfl hne
        · exact ⟨q2, hr2, hb2⟩
      · exact ⟨q1, hr1, hb1⟩
    · rw [findSolo_cons_none, if_neg hbp]
      rcases List.mem_cons.mp h1 with rfl | hr1
      · exact absurd hb1 hbp
      · rcases List.mem_cons.mp h2 with rfl | hr2
        · exact absurd hb2 hbp
        · exact ih q1 q2 hr1 hr2 hne hb1 hb2

/-!
### The pointwise effect of a firing fill step
-/

theorem fillActFold_bget (n : Nat) (s : Nat × Nat) :
    ∀ (cells : List (Nat × Nat)) (c : Cand), WF c → (∀ q ∈ cells, q.1 < 9 ∧ q.2 < 9) →
      ∀ a b, a < 9 → b < 9 →
        bget (cells.foldl (fun c p => if p = s then setExclusiveCandidate c p.1 p.2 n
            else excludeCandidate c p.1 p.2 n) c) a b
          = if (a, b) ∈ cells then
              (if (a, b) = s then toCellMask n else bget c a b &&& (65535 ^^^ toCellMask n))
            else bget c a b := by
  intro cells
  induction cells with
  | nil => intro c _ _ a b _ _; simp
  | cons p rest ih =>
    intro c hc hcw a b ha hb
    have hcwrest := fun q hq => hcw q (List.mem_cons_of_mem _ hq)
    rw [List.foldl_cons]
    by_cases hab : (a, b) = p
    · subst hab
      by_cases hs : (a, b) = s
      · rw [if_pos hs]
        have hstep : bget (setExclusiveCandidate c (a, b).1 (a, b).2 n) a b = toCellMask n :=
          bget_bset_self hc ha hb _
        rw [ih _ (WF_setExclusiveCandidate hc _ _ n) hcwrest a b ha hb]
        by_cases hmem : (a, b) ∈ rest
        · rw [if_pos hmem, if_pos hs, if_pos (List.mem_cons_self _ _), if_pos hs]
        · rw [if_neg hmem, hstep, if_pos (List.mem_cons_self _ _), if_pos hs]
      · rw [if_neg hs]
        have hstep : bget (excludeCandidate c (a, b).1 (a, b).2 n) a b =
            bget c a b &&& (65535 ^^^ toCellMask n) := bget_bset_self hc ha hb _
        rw [ih _ (WF_excludeCandidate hc _ _ n) hcwrest a b ha hb]
        by_cases hmem : (a, b) ∈ rest
        · rw [if_pos hmem, if_neg hs, hstep, land_absorb, if_pos (List.mem_cons_self _ _),
            if_neg hs]
        · rw [if_neg hmem, hstep, if_pos (List.mem_cons_self _ _), if_neg hs]
    · have hne : p.1 ≠ a ∨ p.2 ≠ b := by
        by_contra hcon
        push_neg at hcon
        exact hab (by rw [← hcon.1, ← hcon.2])
      have hmemiff : ((a, b) ∈ p :: rest) ↔ ((a, b) ∈ rest) := by simp [List.mem_cons, hab]
      by_cases hps : p = s
      · rw [if_pos hps]
        have hsame : bget (setExclusiveCandidate c p.1 p.2 n) a b = bget c a b :=
          bget_bset_ne hne _
        rw [ih _ (WF_setExclusiveCandidate hc _ _ n) hcwrest a b ha hb, hsame]
        by_cases hmem : (a, b) ∈ rest
        · rw [if_pos hmem, if_pos (hmemiff.mpr hmem)]
        · rw [if_neg hmem, if_neg (fun hcon => hmem (hmemiff.mp hcon))]
      · rw [if_neg hps]
        have hsame : bget (excludeCandidate c p.1 p.2 n) a b = bget c a b :=
          bget_bset_ne hne _
        rw [ih _ (WF_excludeCandidate hc _ _ n) hcwrest a b ha hb, hsame]
        by_cases hmem : (a, b) ∈ rest
        · rw [if_pos hmem, if_pos (hmemiff.mpr hmem)]
        · rw [if_neg hmem, if_neg (fun hcon => hmem (hmemiff.mp hcon))]

theorem fillStep_eq_of_none {c : Cand} {cells : List (Nat × Nat)} {n : Nat}
    (h : findSolo c n cells none = none) : fillStep cells n c = c := by
  unfold fillStep
  rw [h]

theorem fillStep_fire_bget {c : Cand} {cells : List (Nat × Nat)} {n : Nat} {s : Nat × Nat}
    (h : findSolo c n cells none = some s) (hc : WF c) (hcw : ∀ q ∈ cells, q.1 < 9 ∧ q.2 < 9)
    {a b : Nat} (ha : a < 9) (hb : b < 9) :
    bget (fillStep cells n c) a b
      = if (a, b) ∈ cells then
          (if (a, b) = s then toCellMask n else bget c a b &&& (65535 ^^^ toCellMask n))
        else bget c a b := by
  unfold fillStep
  rw [h]
  exact fillActFold_bget n s cells c hc hcw a b ha hb

/-!
### Narrowing: every rule only removes candidate bits
-/

theorem candLE_refl (c : Cand) : CandLE c c := fun _ _ _ _ => subBits_refl _

theorem candLE_trans {c1 c2 c3 : Cand} (h1 : CandLE c1 c2) (h2 : CandLE c2 c3) : CandLE c1 c3 :=
  fun a b ha hb => subBits_trans (h1 a b ha hb) (h2 a b ha hb)

theorem candLE_bset_of_sub {c : Cand} (hc : WF c) {x y v : Nat}
    (hv : subBits v (bget c x y)) : CandLE (bset c x y v) c := by
  intro a b ha hb
  by_cases hx : x = a
  · by_cases hy : y = b
    · subst hx
      subst hy
      rw [bget_bset_self hc ha hb]
      exact hv
    · rw [bget_bset_ne (Or.inr hy)]
      exact subBits_refl _
  · rw [bget_bset_ne (Or.inl hx)]
    exact subBits_refl _

theorem candLE_excludeCandidate {c : Cand} (hc : WF c) (x y v : Nat) :
    CandLE (excludeCandidate c x y v) c :=
  candLE_bset_of_sub hc (subBits_land_left _ _)

theorem candLE_markAsSolved {c : Cand} (hc : WF c) (x y : Nat) :
    CandLE (markAsSolved c x y) c :=
  candLE_bset_of_sub hc (subBits_zero _)

theorem candLE_excludeAll {c : Cand} (hc : WF c) (T : List (Nat × Nat)) (v : Nat) :
    CandLE (excludeAll T v c) c := by
  have h := foldl_inv (P := fun x => WF x ∧ CandLE x c)
    (fun c q => excludeCandidate c q.1 q.2 v)
    (fun d q hd => ⟨WF_excludeCandidate hd.1 q.1 q.2 v,
      candLE_trans (candLE_excludeCandidate hd.1 q.1 q.2 v) hd.2⟩)
    T c ⟨hc, candLE_refl c⟩
  exact h.2

theorem candLE_excludeWhenSolvedVisit {g : Board} {c : Cand} (hc : WF c) :
    CandLE (excludeWhenSolvedVisit g c) c := by
  unfold excludeWhenSolvedVisit
  have h := foldl_inv (P := fun x => WF x ∧ CandLE x c)
    (fun c p => if bget g p.1 p.2 = 0 then c else markAsSolved c p.1 p.2)
    (fun d p hd => by
      dsimp only
      by_cases hs : bget g p.1 p.2 = 0
      · rwa [if_pos hs]
      · rw [if_neg hs]
        exact ⟨WF_markAsSolved hd.1 p.1 p.2,
          candLE_trans (candLE_markAsSolved hd.1 p.1 p.2) hd.2⟩)
    allCoords c ⟨hc, candLE_refl c⟩
  exact h.2

theorem candLE_uniqueFold {g : Board} {c : Cand} (hc : WF c)
    (Tf : Nat × Nat → List (Nat × Nat)) (L : List (Nat × Nat)) :
    CandLE (L.foldl (fun c p => if bget g p.1 p.2 = 0 then c
      else excludeAll (Tf p) (bget g p.1 p.2) c) c) c := by
  have h := foldl_inv (P := fun x => WF x ∧ CandLE x c)
    (fun c p => if bget g p.1 p.2 = 0 then c else excludeAll (Tf p) (bget g p.1 p.2) c)
    (fun d p hd => by
      dsimp only
      by_cases hs : bget g p.1 p.2 = 0
      · rwa [if_pos hs]
      · rw [if_neg hs]
        exact ⟨WF_excludeAll hd.1 _ _,
          candLE_trans (candLE_excludeAll hd.1 _ _) hd.2⟩)
    L c ⟨hc, candLE_refl c⟩
  exact h.2

theorem candLE_uniqueByColumnVisit {g : Board} {c : Cand} (hc : WF c) :
    CandLE (uniqueByColumnVisit g c) c := candLE_uniqueFold hc _ _

theorem candLE_uniqueByRowVisit {g : Board} {c : Cand} (hc : WF c) :
    CandLE (uniqueByRowVisit g c) c := candLE_uniqueFold hc _ _

theorem candLE_uniqueBy3x3BoxVisit {g : Board} {c : Cand} (hc : WF c) :
    CandLE (uniqueBy3x3BoxVisit g c) c := candLE_uniqueFold hc _ _

theorem candLE_fillStep {c : Cand} (hc : WF c) {cells : List (Nat × Nat)} {n : Nat}
    (hcw : ∀ q ∈ cells, q.1 < 9 ∧ q.2 < 9) : CandLE (fillStep cells n c) c := by
  cases h : findSolo c n cells none with
  | none =>
    rw [fillStep_eq_of_none h]
    exact candLE_refl c
  | some s =>
    rcases findSolo_some c n cells none s h with ⟨hmem, hbit⟩ | habs
    · intro a b ha hb
      rw [fillStep_fire_bget h hc hcw ha hb]
      by_cases hin : (a, b) ∈ cells
      · rw [if_pos hin]
        by_cases hes : (a, b) = s
        · rw [if_pos hes]
          have hba : bget c s.1 s.2 = bget c a b := by rw [← hes]
          rw [toCellMask_eq_pow]
          apply subBits_pow
          apply testBit_of_land_pow_pos
          rw [toCellMask_eq_pow, hba] at hbit
          exact hbit
        · rw [if_neg hes]
          exact subBits_land_left _ _
      · rw [if_neg hin]
        exact subBits_refl _
    · exact absurd habs (by simp)

theorem candLE_fillFold {c : Cand} {α : Type} (cellsOf : α → List (Nat × Nat))
    (valOf : α → Nat) (L : List α) (hc : WF c)
    (hcw : ∀ a ∈ L, ∀ q ∈ cellsOf a, q.1 < 9 ∧ q.2 < 9) :
    CandLE (L.foldl (fun c a => fillStep (cellsOf a) (valOf a) c) c) c ∧
      WF (L.foldl (fun c a => fillStep (cellsOf a) (valOf a) c) c) := by
  induction L generalizing c with
  | nil => exact ⟨candLE_refl c, hc⟩
  | cons a rest ih =>
    rw [List.foldl_cons]
    have hstep := candLE_fillStep hc (hcw a (List.mem_cons_self _ _))
      (n := valOf a)
    have hwf' := WF_fillStep hc (cellsOf a) (valOf a)
    have hrest := ih hwf' (fun a ha => hcw a (List.mem_cons_of_mem _ ha))
    exact ⟨candLE_trans hrest.1 hstep, hrest.2⟩

/-!
### Fill rules either fire (leaving a single-candidate cell) or do nothing
-/

theorem countOnes16_pow16 : ∀ k, k < 16 → countOnes16 (2 ^ k) = 1 := by decide

theorem countOnes16_toCellMask {n : Nat} (h1 : 1 ≤ n) (h2 : n ≤ 16) :
    countOnes16 (toCellMask n) = 1 := by
  rw [toCellMask_eq_pow]
  exact countOnes16_pow16 _ (by omega)

theorem fillStep_single_or_eq {c : Cand} {cells : List (Nat × Nat)} {n : Nat} (hc : WF c)
    (hcw : ∀ q ∈ cells, q.1 < 9 ∧ q.2 < 9) (hn1 : 1 ≤ n) (hn2 : n ≤ 16) :
    fillStep cells n c = c ∨ hasSingle (fillStep cells n c) := by
  cases h : findSolo c n cells none with
  | none => exact Or.inl (fillStep_eq_of_none h)
  | some s =>
    right
    rcases findSolo_some c n cells none s h with ⟨hmem, _⟩ | habs
    · have hs1 : s.1 < 9 := (hcw s hmem).1
      have hs2 : s.2 < 9 := (hcw s hmem).2
      refine ⟨s, mem_allCoords_fst_snd.mpr ⟨hs1, hs2⟩, ?_⟩
      rw [fillStep_fire_bget h hc hcw hs1 hs2]
      rw [if_pos (by rw [Prod.mk.eta]; exact hmem), if_pos (Prod.mk.eta)]
      exact countOnes16_toCellMask hn1 hn2
    · exact absurd habs (by simp)

theorem fold_single_mono {α : Type} (F : Cand → α → Cand) (G : Cand → Prop) :
    ∀ l : List α, (∀ c a, a ∈ l → G c → G (F c a)) →
      (∀ c a, a ∈ l → G c → (F c a = c ∨ hasSingle (F c a))) →
      ∀ c, G c → hasSingle c → hasSingle (l.foldl F c) := by
  intro l
  induction l with
  | nil => intro _ _ c _ hs; exact hs
  | cons a rest ih =>
    intro hG hstep c hGc hs
    rw [List.foldl_cons]
    have hG' := hG c a (List.mem_cons_self _ _) hGc
    have hGrest := fun c a ha => hG c a (List.mem_cons_of_mem _ ha)
    have hsteprest := fun c a ha => hstep c a (List.mem_cons_of_mem _ ha)
    rcases hstep c a (List.mem_cons_self _ _) hGc with heq | hsing
    · rw [heq]
      exact ih hGrest hsteprest c hGc hs
    · exact ih hGrest hsteprest (F c a) hG' hsing

theorem fold_nosingle_eq {α : Type} (F : Cand → α → Cand) (G : Cand → Prop) :
    ∀ l : List α, (∀ c a, a ∈ l → G c → G (F c a)) →
      (∀ c a, a ∈ l → G c → (F c a = c ∨ hasSingle (F c a))) →
      ∀ c, G c → ¬hasSingle (l.foldl F c) → l.foldl F c = c := by
  intro l
  induction l with
  | nil => intro _ _ c _ _; rfl
  | cons a rest ih =>
    intro hG hstep c hGc hns
    rw [List.foldl_cons] at hns ⊢
    have hGrest := fun c a ha => hG c a (List.mem_cons_of_mem _ ha)
    have hsteprest := fun c a ha => hstep c a (List.mem_cons_of_mem _ ha)
    rcases hstep c a (List.mem_cons_self _ _) hGc with heq | hsing
    · rw [heq] at hns ⊢
      exact ih hGrest hsteprest c hGc hns
    · exfalso
      exact hns (fold_single_mono F G rest hGrest hsteprest (F c a)
        (hG c a (List.mem_cons_self _ _) hGc) hsing)

theorem idxValPairs_bounds : ∀ pr ∈ idxValPairs, pr.1 < 9 ∧ 1 ≤ pr.2 ∧ pr.2 ≤ 9 := by decide

theorem boxValTriples_bounds :
    ∀ tr ∈ boxValTriples, tr.1 < 3 ∧ tr.2.1 < 3 ∧ 1 ≤ tr.2.2 ∧ tr.2.2 ≤ 9 := by decide

theorem rowTargets_bounds {x : Nat} (hx : x < 9) : ∀ q ∈ rowTargets x, q.1 < 9 ∧ q.2 < 9 := by
  intro q hq
  cases q
  rw [mem_rowTargets] at hq
  omega

theorem colTargets_bounds {y : Nat} (hy : y < 9) : ∀ q ∈ colTargets y, q.1 < 9 ∧ q.2 < 9 := by
  intro q hq
  cases q
  rw [mem_colTargets] at hq
  omega

theorem boxCells_bounds {xo yo : Nat} (hxo : xo < 3) (hyo : yo < 3) :
    ∀ q ∈ boxCells xo yo, q.1 < 9 ∧ q.2 < 9 := by
  intro q hq
  cases q
  rw [mem_boxCells] at hq
  omega

theorem fillColumnUniquelyVisit_nosingle {g : Board} {c : Cand} (hc : WF c)
    (hns : ¬hasSingle (fillColumnUniquelyVisit g c)) : fillColumnUniquelyVisit g c = c := by
  unfold fillColumnUniquelyVisit at hns ⊢
  apply fold_nosingle_eq _ WF idxValPairs
    (fun c pr _ h => WF_fillStep h _ _)
    (fun c pr hpr h => fillStep_single_or_eq h
      (rowTargets_bounds (idxValPairs_bounds pr hpr).1)
      (idxValPairs_bounds pr hpr).2.1 (by have := (idxValPairs_bounds pr hpr).2.2; omega))
    c hc hns

theorem fillRowUniquelyVisit_nosingle {g : Board} {c : Cand} (hc : WF c)
    (hns : ¬hasSingle (fillRowUniquelyVisit g c)) : fillRowUniquelyVisit g c = c := by
  unfold fillRowUniquelyVisit at hns ⊢
  apply fold_nosingle_eq _ WF idxValPairs
    (fun c pr _ h => WF_fillStep h _ _)
    (fun c pr hpr h => fillStep_single_or_eq h
      (colTargets_bounds (idxValPairs_bounds pr hpr).1)
      (idxValPairs_bounds pr hpr).2.1 (by have := (idxValPairs_bounds pr hpr).2.2; omega))
    c hc hns

theorem fill3x3BoxUniquelyVisit_nosingle {g : Board} {c : Cand} (hc : WF c)
    (hns : ¬hasSingle (fill3x3BoxUniquelyVisit g c)) : fill3x3BoxUniquelyVisit g c = c := by
  unfold fill3x3BoxUniquelyVisit at hns ⊢
  apply fold_nosingle_eq _ WF boxValTriples
    (fun c tr _ h => WF_fillStep h _ _)
    (fun c tr htr h => fillStep_single_or_eq h
      (boxCells_bounds (boxValTriples_bounds tr htr).1 (boxValTriples_bounds tr htr).2.1)
      (boxValTriples_bounds tr htr).2.2.1
      (by have := (boxValTriples_bounds tr htr).2.2.2; omega))
    c hc hns

/-!
### `apply_uniques` characterization
-/

theorem applyAux_snd (c : Cand) :
    ∀ (L : List (Nat × Nat)) (acc : Board × Bool),
      (L.foldl (fun acc p => if remainingCandidates c p.1 p.2 = 1 then
          (setCell acc.1 p.1 p.2 (log2u16 (bget c p.1 p.2) + 1), true)
        else acc) acc).2
        = (acc.2 || L.any (fun p => remainingCandidates c p.1 p.2 == 1)) := by
  intro L
  induction L with
  | nil => intro acc; simp
  | cons p rest ih =>
    intro acc
    rw [List.foldl_cons]
    by_cases hr : remainingCandidates c p.1 p.2 = 1
    · rw [if_pos hr, ih]
      simp [hr]
    · rw [if_neg hr, ih]
      have hfalse : (remainingCandidates c p.1 p.2 == 1) = false := by
        simp [hr]
      simp [List.any_cons, hfalse]

theorem applyUniques_snd {c : Cand} {g : Board} :
    (applyUniques c g).2 = true ↔ hasSingle c := by
  unfold applyUniques
  rw [applyAux_snd]
  simp only [Bool.false_or, List.any_eq_true, beq_iff_eq]
  exact Iff.rfl

theorem applyUniques_snd_false {c : Cand} {g : Board} :
    (applyUniques c g).2 = false ↔ ¬hasSingle c := by
  rw [← applyUniques_snd]
  cases (applyUniques c g).2 <;> simp

theorem applyAux_fst (c : Cand) {a b : Nat} (ha : a < 9) (hb : b < 9) :
    ∀ (L : List (Nat × Nat)) (acc : Board × Bool), WF acc.1 → (∀ p ∈ L, p.1 < 9 ∧ p.2 < 9) →
      bget (L.foldl (fun acc p => if remainingCandidates c p.1 p.2 = 1 then
          (setCell acc.1 p.1 p.2 (log2u16 (bget c p.1 p.2) + 1), true)
        else acc) acc).1 a b
        = if (a, b) ∈ L ∧ remainingCandidates c a b = 1 then log2u16 (bget c a b) + 1
          else bget acc.1 a b := by
  intro L
  induction L with
  | nil => intro acc _ _; simp
  | cons p rest ih =>
    intro acc hacc hL
    have hLrest := fun q hq => hL q (List.mem_cons_of_mem _ hq)
    rw [List.foldl_cons]
    by_cases hab : (a, b) = p
    · subst hab
      by_cases hr : remainingCandidates c a b = 1
      · rw [if_pos hr, ih _ (by exact WF_bset hacc a b _) hLrest]
        have hself : bget (setCell acc.1 a b (log2u16 (bget c a b) + 1)) a b
            = log2u16 (bget c a b) + 1 := bget_bset_self hacc ha hb _
        by_cases hmem : (a, b) ∈ rest
        · rw [if_pos ⟨hmem, hr⟩, if_pos ⟨List.mem_cons_self _ _, hr⟩]
        · rw [if_neg (by rintro ⟨h1, _⟩; exact hmem h1), hself,
            if_pos ⟨List.mem_cons_self _ _, hr⟩]
      · rw [if_neg hr, ih _ hacc hLrest]
        rw [if_neg (by rintro ⟨_, h2⟩; exact hr h2), if_neg (by rintro ⟨_, h2⟩; exact hr h2)]
    · have hne : p.1 ≠ a ∨ p.2 ≠ b := by
        by_contra hcon
        push_neg at hcon
        exact hab (by rw [← hcon.1, ← hcon.2])
      have hmemiff : ((a, b) ∈ p :: rest) ↔ ((a, b) ∈ rest) := by simp [List.mem_cons, hab]
      by_cases hr : remainingCandidates c p.1 p.2 = 1
      · rw [if_pos hr, ih _ (by exact WF_bset hacc p.1 p.2 _) hLrest]
        have hsame : bget (setCell acc.1 p.1 p.2 (log2u16 (bget c p.1 p.2) + 1)) a b
            = bget acc.1 a b := bget_bset_ne hne _
        by_cases hmem : (a, b) ∈ rest ∧ remainingCandidates c a b = 1
        · rw [if_pos hmem, if_pos ⟨hmemiff.mpr hmem.1, hmem.2⟩]
        · rw [if_neg hmem, hsame,
            if_neg (by rintro ⟨h1, h2⟩; exact hmem ⟨hmemiff.mp h1, h2⟩)]
      · rw [if_neg hr, ih _ hacc hLrest]
        by_cases hmem : (a, b) ∈ rest ∧ remainingCandidates c a b = 1
        · rw [if_pos hmem, if_pos ⟨hmemiff.mpr hmem.1, hmem.2⟩]
        · rw [if_neg hmem, if_neg (by rintro ⟨h1, h2⟩; exact hmem ⟨hmemiff.mp h1, h2⟩)]

theorem applyUniques_fst {c : Cand} {g : Board} (hg : WF g) {a b : Nat}
    (ha : a < 9) (hb : b < 9) :
    bget (applyUniques c g).1 a b
      = if remainingCandidates c a b = 1 then log2u16 (bget c a b) + 1 else bget g a b := by
  unfold applyUniques
  rw [applyAux_fst c ha hb allCoords (g, false) hg (fun p hp => mem_allCoords_fst_snd.mp hp)]
  by_cases hr : remainingCandidates c a b = 1
  · rw [if_pos ⟨mem_allCoords.mpr ⟨ha, hb⟩, hr⟩, if_pos hr]
  · rw [if_neg (by rintro ⟨_, h2⟩; exact hr h2), if_neg hr]

theorem WF_applyUniques_fst {c : Cand} {g : Board} (hg : WF g) : WF (applyUniques c g).1 := by
  unfold applyUniques
  have h := foldl_inv (P := fun acc : Board × Bool => WF acc.1)
    (fun acc p => if remainingCandidates c p.1 p.2 = 1 then
      (setCell acc.1 p.1 p.2 (log2u16 (bget c p.1 p.2) + 1), true)
    else acc)
    (fun acc p hacc => by
      dsimp only
      by_cases hr : remainingCandidates c p.1 p.2 = 1
      · rw [if_pos hr]
        exact WF_bset hacc p.1 p.2 _
      · rwa [if_neg hr])
    allCoords (g, false) hg
  exact h

theorem applyUniques_nosingle {c : Cand} {g : Board} (hns : ¬hasSingle c) :
    applyUniques c g = (g, false) := by
  unfold applyUniques
  have haux : ∀ (L : List (Nat × Nat)) (acc : Board × Bool), (∀ p ∈ L, p ∈ allCoords) →
      (L.foldl (fun acc p => if remainingCandidates c p.1 p.2 = 1 then
          (setCell acc.1 p.1 p.2 (log2u16 (bget c p.1 p.2) + 1), true)
        else acc) acc) = acc := by
    intro L
    induction L with
    | nil => intro acc _; rfl
    | cons p rest ih =>
      intro acc hL
      simp only [List.foldl_cons]
      rw [if_neg (show ¬remainingCandidates c p.1 p.2 = 1 from
        fun hr => hns ⟨p, hL p (List.mem_cons_self _ _), hr⟩)]
      exact ih acc (fun q hq => hL q (List.mem_cons_of_mem _ hq))
  exact haux allCoords (g, false) (fun p hp => hp)

/-!
### Pass-level lemmas
-/

/-- The seven rule visits of one pass, in program order. -/
def rulePhase (g : Board) (c : Cand) : Cand :=
  fill3x3BoxUniquelyVisit g (fillRowUniquelyVisit g (fillColumnUniquelyVisit g
    (uniqueBy3x3BoxVisit g (uniqueByRowVisit g (uniqueByColumnVisit g
      (excludeWhenSolvedVisit g c))))))

theorem passOnce_eq (g : Board) (c : Cand) :
    passOnce g c
      = ((applyUniques (rulePhase g c) g).1, rulePhase g c, (applyUniques (rulePhase g c) g).2) :=
  rfl

theorem WF_rulePhase {g : Board} {c : Cand} (hc : WF c) : WF (rulePhase g c) :=
  WF_fill3x3BoxUniquelyVisit (WF_fillRowUniquelyVisit (WF_fillColumnUniquelyVisit
    (WF_uniqueBy3x3BoxVisit (WF_uniqueByRowVisit (WF_uniqueByColumnVisit
      (WF_excludeWhenSolvedVisit hc))))))

theorem candLE_fold {α : Type} (F : Cand → α → Cand) :
    ∀ L : List α, (∀ c a, a ∈ L → WF c → WF (F c a)) →
      (∀ c a, a ∈ L → WF c → CandLE (F c a) c) →
      ∀ c, WF c → CandLE (L.foldl F c) c ∧ WF (L.foldl F c) := by
  intro L
  induction L with
  | nil => intro _ _ c hc; exact ⟨candLE_refl c, hc⟩
  | cons a rest ih =>
    intro hWF hLE c hc
    rw [List.foldl_cons]
    have hstepWF := hWF c a (List.mem_cons_self _ _) hc
    have hstepLE := hLE c a (List.mem_cons_self _ _) hc
    have hrest := ih (fun c a ha => hWF c a (List.mem_cons_of_mem _ ha))
      (fun c a ha => hLE c a (List.mem_cons_of_mem _ ha)) (F c a) hstepWF
    exact ⟨candLE_trans hrest.1 hstepLE, hrest.2⟩

theorem candLE_fillColumnUniquelyVisit {g : Board} {c : Cand} (hc : WF c) :
    CandLE (fillColumnUniquelyVisit g c) c := by
  unfold fillColumnUniquelyVisit
  refine (candLE_fold _ idxValPairs ?_ ?_ c hc).1
  · intro c pr _ h
    exact WF_fillStep h _ _
  · intro c pr hpr h
    exact candLE_fillStep h (rowTargets_bounds (idxValPairs_bounds pr hpr).1)

theorem candLE_fillRowUniquelyVisit {g : Board} {c : Cand} (hc : WF c) :
    CandLE (fillRowUniquelyVisit g c) c := by
  unfold fillRowUniquelyVisit
  refine (candLE_fold _ idxValPairs ?_ ?_ c hc).1
  · intro c pr _ h
    exact WF_fillStep h _ _
  · intro c pr hpr h
    exact candLE_fillStep h (colTargets_bounds (idxValPairs_bounds pr hpr).1)

theorem candLE_fill3x3BoxUniquelyVisit {g : Board} {c : Cand} (hc : WF c) :
    CandLE (fill3x3BoxUniquelyVisit g c) c := by
  unfold fill3x3BoxUniquelyVisit
  refine (candLE_fold _ boxValTriples ?_ ?_ c hc).1
  · intro c tr _ h
    exact WF_fillStep h _ _
  · intro c tr htr h
    exact candLE_fillStep h (boxCells_bounds (boxValTriples_bounds tr htr).1
      (boxValTriples_bounds tr htr).2.1)

/-- Everything after `ExcludeWhenSolved` in a pass only narrows masks. -/
theorem candLE_rulePhase_excl {g : Board} {c : Cand} (hc : WF c) :
    CandLE (rulePhase g c) (excludeWhenSolvedVisit g c) := by
  have h1 : WF (excludeWhenSolvedVisit g c) := WF_excludeWhenSolvedVisit hc
  have h2 := WF_uniqueByColumnVisit (g := g) h1
  have h3 := WF_uniqueByRowVisit (g := g) h2
  have h4 := WF_uniqueBy3x3BoxVisit (g := g) h3
  have h5 := WF_fillColumnUniquelyVisit (g := g) h4
  have h6 := WF_fillRowUniquelyVisit (g := g) h5
  exact candLE_trans (candLE_fill3x3BoxUniquelyVisit h6)
    (candLE_trans (candLE_fillRowUniquelyVisit h5)
      (candLE_trans (candLE_fillColumnUniquelyVisit h4)
        (candLE_trans (candLE_uniqueBy3x3BoxVisit h3)
          (candLE_trans (candLE_uniqueByRowVisit h2) (candLE_uniqueByColumnVisit h1)))))

theorem candLE_rulePhase {g : Board} {c : Cand} (hc : WF c) : CandLE (rulePhase g c) c :=
  candLE_trans (candLE_rulePhase_excl hc) (candLE_excludeWhenSolvedVisit hc)

theorem subBits_zero_eq {m : Nat} (h : subBits m 0) : m = 0 := by
  apply Nat.eq_of_testBit_eq
  intro i
  rw [Nat.zero_testBit]
  by_contra hcon
  have := h i (by
    cases hb : m.testBit i
    · exact absurd hb hcon
    · rfl)
  simp at this

/-- After a full rule phase, every solved grid cell's mask is `0` (it was
zeroed by `ExcludeWhenSolved` and later rules only remove bits). -/
theorem rulePhase_solved {g : Board} {c : Cand} (hc : WF c) {a b : Nat}
    (ha : a < 9) (hb : b < 9) (hs : bget g a b ≠ 0) : bget (rulePhase g c) a b = 0 := by
  apply subBits_zero_eq
  have hexcl : bget (excludeWhenSolvedVisit g c) a b = 0 := by
    rw [excludeWhenSolvedVisit_bget hc ha hb, if_neg hs]
  have := candLE_rulePhase_excl (g := g) hc a b ha hb
  rwa [hexcl] at this

theorem countOnes16_zero : countOnes16 0 = 0 := by decide

theorem passOnce_grid_solved {g : Board} {c : Cand} (hg : WF g) (hc : WF c) {a b : Nat}
    (ha : a < 9) (hb : b < 9) (hs : bget g a b ≠ 0) :
    bget (passOnce g c).1 a b = bget g a b := by
  rw [passOnce_eq]
  rw [applyUniques_fst hg ha hb]
  rw [if_neg]
  intro hr
  rw [remainingCandidates, rulePhase_solved hc ha hb hs, countOnes16_zero] at hr
  exact absurd hr (by omega)

theorem WF_passOnce_grid {g : Board} {c : Cand} (hg : WF g) : WF (passOnce g c).1 := by
  rw [passOnce_eq]
  exact WF_applyUniques_fst hg

theorem WF_passOnce_cand {g : Board} {c : Cand} (hc : WF c) : WF (passOnce g c).2.1 := by
  rw [passOnce_eq]
  exact WF_rulePhase hc

/-!
### Progress: a pass that reports a change solves a new cell
-/

theorem filter_length_lt {α : Type} (p q : α → Bool) :
    ∀ l : List α, (∀ a ∈ l, p a = true → q a = true) →
      ∀ a0 ∈ l, p a0 = false → q a0 = true →
        (l.filter p).length < (l.filter q).length := by
  intro l
  induction l with
  | nil => intro _ a0 h; exact absurd h (by simp)
  | cons x rest ih =>
    intro hmono a0 ha0 hp0 hq0
    have hmonorest := fun a ha => hmono a (List.mem_cons_of_mem _ ha)
    rcases List.mem_cons.mp ha0 with rfl | hrest
    · rw [List.filter_cons_of_neg (by simp [hp0]), List.filter_cons_of_pos hq0]
      have := filter_length_mono p q rest hmonorest
      simp only [List.length_cons]
      omega
    · by_cases hpx : p x = true
      · have hqx := hmono x (List.mem_cons_self _ _) hpx
        rw [List.filter_cons_of_pos hpx, List.filter_cons_of_pos hqx]
        simp only [List.length_cons]
        have := ih hmonorest a0 hrest hp0 hq0
        omega
      · have := ih hmonorest a0 hrest hp0 hq0
        by_cases hqx : q x = true
        · rw [List.filter_cons_of_neg hpx, List.filter_cons_of_pos hqx]
          simp only [List.length_cons]
          omega
        · rw [List.filter_cons_of_neg hpx, List.filter_cons_of_neg hqx]
          exact this

theorem countOnes16_ne_zero {m : Nat} (h : countOnes16 m = 1) : m ≠ 0 := by
  intro hcon
  rw [hcon, countOnes16_zero] at h
  omega

/-- If a pass reports a change, at least one previously-blank cell is solved,
and no solved cell is unsolved: the number of solved cells strictly grows. -/
theorem passOnce_true_nzCount {g : Board} {c : Cand} (hg : WF g) (hc : WF c)
    (h : (passOnce g c).2.2 = true) : nzCount g < nzCount (passOnce g c).1 := by
  have hsingle : hasSingle (rulePhase g c) := by
    rw [passOnce_eq] at h
    exact applyUniques_snd.mp h
  rcases hsingle with ⟨p0, hp0mem, hp0one⟩
  have hp0b := mem_allCoords_fst_snd.mp hp0mem
  have hgz : bget g p0.1 p0.2 = 0 := by
    by_contra hcon
    rw [rulePhase_solved hc hp0b.1 hp0b.2 hcon, countOnes16_zero] at hp0one
    omega
  have hfst : ∀ a b, a < 9 → b < 9 → bget (passOnce g c).1 a b
      = if remainingCandidates (rulePhase g c) a b = 1
        then log2u16 (bget (rulePhase g c) a b) + 1 else bget g a b := by
    intro a b ha hb
    rw [passOnce_eq]
    exact applyUniques_fst hg ha hb
  unfold nzCount
  apply filter_length_lt _ _ allCoords ?_ p0 hp0mem ?_ ?_
  · intro a ha hp
    rcases mem_allCoords_fst_snd.mp ha with ⟨ha1, ha2⟩
    rw [bne_iff_ne] at hp ⊢
    rw [hfst a.1 a.2 ha1 ha2]
    by_cases hr : remainingCandidates (rulePhase g c) a.1 a.2 = 1
    · rw [if_pos hr]
      omega
    · rwa [if_neg hr]
  · simp [hgz]
  · dsimp only
    rw [bne_iff_ne, hfst p0.1 p0.2 hp0b.1 hp0b.2,
      if_pos (show remainingCandidates (rulePhase g c) p0.1 p0.2 = 1 from hp0one)]
    omega

theorem nzCount_le (g : Board) : nzCount g ≤ 81 := by
  have h := List.length_filter_le (fun p => bget g p.1 p.2 != 0) allCoords
  have : allCoords.length = 81 := by decide
  unfold nzCount
  omega

/-!
### The loop
-/

theorem runLoop_succ (n : Nat) (g : Board) (c : Cand) :
    runLoop (n + 1) g c
      = if (passOnce g c).2.2 then runLoop n (passOnce g c).1 (passOnce g c).2.1
        else ((passOnce g c).1, (passOnce g c).2.1, false) := rfl

theorem runLoop_step_true {n : Nat} {g : Board} {c : Cand} {g' : Board} {c' : Cand}
    (h : passOnce g c = (g', c', true)) : runLoop (n + 1) g c = runLoop n g' c' := by
  rw [runLoop_succ, h]
  rfl

theorem runLoop_step_false {n : Nat} {g : Board} {c : Cand} {g' : Board} {c' : Cand}
    (h : passOnce g c = (g', c', false)) : runLoop (n + 1) g c = (g', c', false) := by
  rw [runLoop_succ, h]
  rfl

/-- The loop converges within `81 - nzCount g` further passes: each
change-reporting pass strictly increases the number of solved cells, which is
bounded by `81`. -/
theorem runLoop_converges {fuel : Nat} :
    ∀ (g : Board) (c : Cand), WF g → WF c → 81 - nzCount g < fuel →
      (runLoop fuel g c).2.2 = false := by
  induction fuel with
  | zero => intro g c _ _ h; omega
  | succ n ih =>
    intro g c hg hc hfuel
    rw [runLoop_succ]
    by_cases hch : (passOnce g c).2.2 = true
    · rw [if_pos hch]
      have hlt := passOnce_true_nzCount hg hc hch
      have hle := nzCount_le (passOnce g c).1
      exact ih (passOnce g c).1 (passOnce g c).2.1 (WF_passOnce_grid hg)
        (WF_passOnce_cand hc) (by omega)
    · rw [if_neg hch]

/-- Solved grid cells survive the rest of the run unchanged. -/
theorem runLoop_grid_monotone {fuel : Nat} :
    ∀ (g : Board) (c : Cand), WF g → WF c → ∀ x y, bget g x y ≠ 0 →
      bget (runLoop fuel g c).1 x y = bget g x y := by
  induction fuel with
  | zero => intro g c _ _ x y _; rfl
  | succ n ih =>
    intro g c hg hc x y hx
    have hxy : x < 9 ∧ y < 9 := by
      by_contra hcon
      push_neg at hcon
      rcases Nat.lt_or_ge x 9 with h9 | h9
      · exact hx (bget_oob hg (Or.inr (hcon h9)))
      · exact hx (bget_oob hg (Or.inl h9))
    have hstep : bget (passOnce g c).1 x y = bget g x y :=
      passOnce_grid_solved hg hc hxy.1 hxy.2 hx
    rw [runLoop_succ]
    by_cases hch : (passOnce g c).2.2 = true
    · rw [if_pos hch, ih (passOnce g c).1 (passOnce g c).2.1 (WF_passOnce_grid hg)
        (WF_passOnce_cand hc) x y (by rw [hstep]; exact hx), hstep]
    · rw [if_neg hch]
      exact hstep

/-!
### Stability of a converged pass
-/

/-- The three unique-by-region visits, in program order. -/
def uniquePhases (g : Board) (c : Cand) : Cand :=
  uniqueBy3x3BoxVisit g (uniqueByRowVisit g (uniqueByColumnVisit g c))

/-- Bits of all solved values in the column, row and box of `(a, b)`. -/
def allRegionMask (g : Board) (a b : Nat) : Nat :=
  colSolvedMask g b ||| rowSolvedMask g a ||| boxSolvedMask g a b

theorem rulePhase_eq (g : Board) (c : Cand) :
    rulePhase g c = fill3x3BoxUniquelyVisit g (fillRowUniquelyVisit g
      (fillColumnUniquelyVisit g (uniquePhases g (excludeWhenSolvedVisit g c)))) := rfl

theorem subBits_lor_left (a b : Nat) : subBits a (a ||| b) := by
  intro i h
  rw [Nat.testBit_or, h]
  rfl

theorem subBits_lor_right (a b : Nat) : subBits b (a ||| b) := by
  intro i h
  rw [Nat.testBit_or, h]
  exact Bool.or_true _

theorem WF_uniquePhases {g : Board} {c : Cand} (hc : WF c) : WF (uniquePhases g c) :=
  WF_uniqueBy3x3BoxVisit (WF_uniqueByRowVisit (WF_uniqueByColumnVisit hc))

theorem colSolvedMask_lt {g : Board} (hv : ∀ x y, bget g x y ≤ 9) (b : Nat) :
    colSolvedMask g b < 65536 :=
  contribMask_lt g _ allCoords (fun p _ => hv p.1 p.2)

theorem rowSolvedMask_lt {g : Board} (hv : ∀ x y, bget g x y ≤ 9) (a : Nat) :
    rowSolvedMask g a < 65536 :=
  contribMask_lt g _ allCoords (fun p _ => hv p.1 p.2)

theorem boxSolvedMask_lt {g : Board} (hv : ∀ x y, bget g x y ≤ 9) (a b : Nat) :
    boxSolvedMask g a b < 65536 :=
  contribMask_lt g _ boxOrderCoords (fun p _ => hv p.1 p.2)

theorem allRegionMask_lt {g : Board} (hv : ∀ x y, bget g x y ≤ 9) (a b : Nat) :
    allRegionMask g a b < 65536 := by
  unfold allRegionMask
  have h16 : (65536 : Nat) = 2 ^ 16 := by norm_num
  rw [h16]
  apply Nat.or_lt_two_pow _ (by rw [← h16]; exact boxSolvedMask_lt hv a b)
  apply Nat.or_lt_two_pow (by rw [← h16]; exact colSolvedMask_lt hv b)
    (by rw [← h16]; exact rowSolvedMask_lt hv a)

theorem uniquePhases_bget {g c : Board} {a b : Nat} (hc : WF c)
    (hv : ∀ x y, bget g x y ≤ 9) (ha : a < 9) (hb : b < 9) (hm : bget c a b < 65536) :
    bget (uniquePhases g c) a b = bget c a b &&& (65535 ^^^ allRegionMask g a b) := by
  have h16 : (65536 : Nat) = 2 ^ 16 := by norm_num
  have hCM := colSolvedMask_lt hv b
  have hRM := rowSolvedMask_lt hv a
  have hBM := boxSolvedMask_lt hv a b
  have h1 := uniqueByColumnVisit_bget hc hv ha hb hm
  have hwf1 := WF_uniqueByColumnVisit (g := g) hc
  have hm1 : bget (uniqueByColumnVisit g c) a b < 65536 := by
    rw [h1, h16]
    exact Nat.and_lt_two_pow _ (Nat.xor_lt_two_pow (by norm_num) (h16 ▸ hCM))
  have h2 := uniqueByRowVisit_bget hwf1 hv ha hb hm1
  have hwf2 := WF_uniqueByRowVisit (g := g) hwf1
  have hm2 : bget (uniqueByRowVisit g (uniqueByColumnVisit g c)) a b < 65536 := by
    rw [h2, h16]
    exact Nat.and_lt_two_pow _ (Nat.xor_lt_two_pow (by norm_num) (h16 ▸ hRM))
  have h3 := uniqueBy3x3BoxVisit_bget hwf2 hv ha hb hm2
  unfold uniquePhases
  rw [h3, h2, h1, Nat.land_assoc, Nat.land_assoc,
    u16_demorgan hRM hBM, u16_demorgan hCM (Nat.or_lt_two_pow (h16 ▸ hRM) (h16 ▸ hBM) |> (h16 ▸ ·))]
  unfold allRegionMask
  rw [Nat.lor_assoc]

theorem land_comp_absorb {m M k : Nat} (hM : M < 65536) (hk : k < 65536) (hsub : subBits k M) :
    m &&& (65535 ^^^ M) &&& (65535 ^^^ k) = m &&& (65535 ^^^ M) := by
  rw [Nat.land_assoc, u16_demorgan hM hk, lor_eq_of_sub hsub]

/-- In a state of the shape left by `ExcludeWhenSolved` + the unique rules
(solved cells zeroed, all region bits already excluded), re-running
`ExcludeWhenSolved` or any unique rule changes nothing. -/
theorem stable_core {g : Board} {c1 c4 : Cand} (hc1 : WF c1) (hc4 : WF c4)
    (hv : ∀ x y, bget g x y ≤ 9)
    (hexcl0 : ∀ a b, a < 9 → b < 9 → bget g a b ≠ 0 → bget c1 a b = 0)
    (hphase : ∀ a b, a < 9 → b < 9 →
      bget c4 a b = bget c1 a b &&& (65535 ^^^ allRegionMask g a b)) :
    excludeWhenSolvedVisit g c4 = c4 ∧ uniquePhases g c4 = c4 := by
  have h16 : (65536 : Nat) = 2 ^ 16 := by norm_num
  have hcb4 : ∀ a b, a < 9 → b < 9 → bget c4 a b < 65536 := by
    intro a b ha hb
    rw [hphase a b ha hb, h16]
    exact Nat.and_lt_two_pow _ (Nat.xor_lt_two_pow (by norm_num)
      (h16 ▸ allRegionMask_lt hv a b))
  have hexcl : excludeWhenSolvedVisit g c4 = c4 := by
    apply boardExt (WF_excludeWhenSolvedVisit hc4) hc4
    intro x hx y hy
    rw [excludeWhenSolvedVisit_bget hc4 hx hy]
    by_cases hs : bget g x y = 0
    · rw [if_pos hs]
    · rw [if_neg hs, hphase x y hx hy, hexcl0 x y hx hy hs, Nat.zero_and]
  have hucol : uniqueByColumnVisit g c4 = c4 := by
    apply boardExt (WF_uniqueByColumnVisit hc4) hc4
    intro x hx y hy
    rw [uniqueByColumnVisit_bget hc4 hv hx hy (hcb4 x y hx hy), hphase x y hx hy]
    exact land_comp_absorb (allRegionMask_lt hv x y) (colSolvedMask_lt hv y)
      (subBits_trans (subBits_lor_left _ _) (subBits_lor_left _ _))
  have hurow : uniqueByRowVisit g c4 = c4 := by
    apply boardExt (WF_uniqueByRowVisit hc4) hc4
    intro x hx y hy
    rw [uniqueByRowVisit_bget hc4 hv hx hy (hcb4 x y hx hy), hphase x y hx hy]
    exact land_comp_absorb (allRegionMask_lt hv x y) (rowSolvedMask_lt hv x)
      (subBits_trans (subBits_lor_right _ _) (subBits_lor_left _ _))
  have hubox : uniqueBy3x3BoxVisit g c4 = c4 := by
    apply boardExt (WF_uniqueBy3x3BoxVisit hc4) hc4
    intro x hx y hy
    rw [uniqueBy3x3BoxVisit_bget hc4 hv hx hy (hcb4 x y hx hy), hphase x y hx hy]
    exact land_comp_absorb (allRegionMask_lt hv x y) (boxSolvedMask_lt hv x y)
      (subBits_lor_right _ _)
  refine ⟨hexcl, ?_⟩
  unfold uniquePhases
  rw [hucol, hurow, hubox]

/-- A pass whose `apply_uniques` reported no change leaves a state on which
one further pass again reports no change. -/
theorem passOnce_stable {g : Board} {c : Cand} (hg : WF g) (hc : WF c)
    (hv : ∀ x y, bget g x y ≤ 9)
    (hcb : ∀ a b, a < 9 → b < 9 → bget c a b < 65536)
    (hfalse : (passOnce g c).2.2 = false) :
    passOnce (passOnce g c).1 (passOnce g c).2.1
      = ((passOnce g c).1, (passOnce g c).2.1, false) := by
  have hc1 : WF (excludeWhenSolvedVisit g c) := WF_excludeWhenSolvedVisit hc
  have hc4 : WF (uniquePhases g (excludeWhenSolvedVisit g c)) := WF_uniquePhases hc1
  have hcb1 : ∀ a b, a < 9 → b < 9 → bget (excludeWhenSolvedVisit g c) a b < 65536 := by
    intro a b ha hb
    rw [excludeWhenSolvedVisit_bget hc ha hb]
    by_cases hs : bget g a b = 0
    · rw [if_pos hs]
      exact hcb a b ha hb
    · rw [if_neg hs]
      norm_num
  have hexcl0 : ∀ a b, a < 9 → b < 9 → bget g a b ≠ 0 →
      bget (excludeWhenSolvedVisit g c) a b = 0 := by
    intro a b ha hb hs
    rw [excludeWhenSolvedVisit_bget hc ha hb, if_neg hs]
  have hphase : ∀ a b, a < 9 → b < 9 →
      bget (uniquePhases g (excludeWhenSolvedVisit g c)) a b
        = bget (excludeWhenSolvedVisit g c) a b &&& (65535 ^^^ allRegionMask g a b) :=
    fun a b ha hb => uniquePhases_bget hc1 hv ha hb (hcb1 a b ha hb)
  have hns : ¬hasSingle (rulePhase g c) := by
    rw [passOnce_eq] at hfalse
    exact applyUniques_snd_false.mp hfalse
  have wf5 : WF (fillColumnUniquelyVisit g (uniquePhases g (excludeWhenSolvedVisit g c))) :=
    WF_fillColumnUniquelyVisit hc4
  have wf6 : WF (fillRowUniquelyVisit g (fillColumnUniquelyVisit g
      (uniquePhases g (excludeWhenSolvedVisit g c)))) := WF_fillRowUniquelyVisit wf5
  have hns7 : ¬hasSingle (fill3x3BoxUniquelyVisit g (fillRowUniquelyVisit g
      (fillColumnUniquelyVisit g (uniquePhases g (excludeWhenSolvedVisit g c))))) := by
    rw [← rulePhase_eq]
    exact hns
  have h7 := fill3x3BoxUniquelyVisit_nosingle wf6 hns7
  have hns6 := hns7
  rw [h7] at hns6
  have h6 := fillRowUniquelyVisit_nosingle wf5 hns6
  have hns5 := hns6
  rw [h6] at hns5
  have h5 := fillColumnUniquelyVisit_nosingle hc4 hns5
  have hns4 := hns5
  rw [h5] at hns4
  have hc7c4 : rulePhase g c = uniquePhases g (excludeWhenSolvedVisit g c) := by
    rw [rulePhase_eq, h7, h6, h5]
  have hcore := stable_core hc1 hc4 hv hexcl0 hphase
  have h6' := h6
  rw [h5] at h6'
  have h7' := h7
  rw [h5, h6'] at h7'
  have hrp4 : rulePhase g (uniquePhases g (excludeWhenSolvedVisit g c))
      = uniquePhases g (excludeWhenSolvedVisit g c) := by
    rw [rulePhase_eq, hcore.1, hcore.2, h5, h6', h7']
  have happ := applyUniques_nosingle (c := rulePhase g c) (g := g) hns
  have hg' : (passOnce g c).1 = g := by
    rw [passOnce_eq]
    simp only [happ]
  have hcand : (passOnce g c).2.1 = uniquePhases g (excludeWhenSolvedVisit g c) := by
    rw [passOnce_eq]
    exact hc7c4
  rw [hg', hcand, passOnce_eq, hrp4,
    applyUniques_nosingle (by rw [← hc7c4]; exact hns)]

/-!
### Helpers for the per-claim theorems
-/

set_option maxRecDepth 4000 in
theorem countOnes16_single :
    ∀ m, m < 512 → countOnes16 m = 1 → m ∈ [1, 2, 4, 8, 16, 32, 64, 128, 256] := by
  decide

theorem log2_pow {k : Nat} : Nat.log2 (2 ^ k) = k := by
  rw [Nat.log2_eq_log_two]
  exact Nat.log_pow (by norm_num) k

theorem single_mask_fact {m : Nat} (hlt : m < 512) (hone : countOnes16 m = 1) :
    m = toCellMask (Nat.log2 m + 1) ∧ 1 ≤ Nat.log2 m + 1 ∧ Nat.log2 m + 1 ≤ 9 := by
  have hmem := countOnes16_single m hlt hone
  have hm : m = 1 ∨ m = 2 ∨ m = 4 ∨ m = 8 ∨ m = 16 ∨ m = 32 ∨ m = 64 ∨ m = 128 ∨ m = 256 := by
    simpa using hmem
  have hex : ∃ k, k < 9 ∧ m = 2 ^ k := by
    rcases hm with rfl | rfl | rfl | rfl | rfl | rfl | rfl | rfl | rfl
    · exact ⟨0, by norm_num⟩
    · exact ⟨1, by norm_num⟩
    · exact ⟨2, by norm_num⟩
    · exact ⟨3, by norm_num⟩
    · exact ⟨4, by norm_num⟩
    · exact ⟨5, by norm_num⟩
    · exact ⟨6, by norm_num⟩
    · exact ⟨7, by norm_num⟩
    · exact ⟨8, by norm_num⟩
  rcases hex with ⟨k, hk9, rfl⟩
  rw [log2_pow]
  refine ⟨?_, by omega, by omega⟩
  rw [toCellMask_eq_pow]
  simp

theorem rowTargets_nodup : ∀ x, x < 9 → (rowTargets x).Nodup := by decide

theorem colTargets_nodup : ∀ y, y < 9 → (colTargets y).Nodup := by decide

theorem boxCells_nodup : ∀ xo, xo < 3 → ∀ yo, yo < 3 → (boxCells xo yo).Nodup := by decide

/-- The per-`(region, value)` behavior the fill rules are claimed to have. -/
def fillStepSpec (c : Cand) (cells : List (Nat × Nat)) (n : Nat) : Prop :=
  (∀ s ∈ cells, 0 < bget c s.1 s.2 &&& toCellMask n →
    (∀ q ∈ cells, 0 < bget c q.1 q.2 &&& toCellMask n → q = s) →
      bget (fillStep cells n c) s.1 s.2 = toCellMask n ∧
        ∀ q ∈ cells, q ≠ s →
          bget (fillStep cells n c) q.1 q.2 = bget c q.1 q.2 &&& (65535 ^^^ toCellMask n)) ∧
  (¬(∃ s ∈ cells, 0 < bget c s.1 s.2 &&& toCellMask n ∧
      ∀ q ∈ cells, 0 < bget c q.1 q.2 &&& toCellMask n → q = s) →
    fillStep cells n c = c)

theorem fillStepSpec_of {c : Cand} {cells : List (Nat × Nat)} {n : Nat} (hc : WF c)
    (hnd : cells.Nodup) (hbounds : ∀ q ∈ cells, q.1 < 9 ∧ q.2 < 9) :
    fillStepSpec c cells n := by
  constructor
  · intro s hs hbit huniq
    have hfind : findSolo c n cells none = some s :=
      findSolo_unique c n cells hnd s hs hbit
        (fun q hq hqs hbq => hqs (huniq q hq hbq))
    have hs1 := (hbounds s hs).1
    have hs2 := (hbounds s hs).2
    constructor
    · rw [fillStep_fire_bget hfind hc hbounds hs1 hs2,
        if_pos (by rw [Prod.mk.eta]; exact hs), if_pos Prod.mk.eta]
    · intro q hq hqs
      have hq1 := (hbounds q hq).1
      have hq2 := (hbounds q hq).2
      rw [fillStep_fire_bget hfind hc hbounds hq1 hq2,
        if_pos (by rw [Prod.mk.eta]; exact hq),
        if_neg (by rw [Prod.mk.eta]; exact hqs)]
  · intro hnone
    by_cases hex : ∃ q ∈ cells, 0 < bget c q.1 q.2 &&& toCellMask n
    · rcases hex with ⟨q, hq, hbq⟩
      have : ¬∀ q2 ∈ cells, 0 < bget c q2.1 q2.2 &&& toCellMask n → q2 = q := by
        intro hall
        exact hnone ⟨q, hq, hbq, hall⟩
      push_neg at this
      rcases this with ⟨q2, hq2, hbq2, hq2ne⟩
      exact fillStep_eq_of_none (findSolo_two c n cells q2 q hq2 hq hq2ne hbq2 hbq)
    · apply fillStep_eq_of_none
      apply findSolo_no_bit
      intro q hq hbq
      exact hex ⟨q, hq, hbq⟩

theorem contribMask_has {g : Board} {hits : Nat × Nat → Bool} {p : Nat × Nat} :
    ∀ {L : List (Nat × Nat)}, p ∈ L → bget g p.1 p.2 ≠ 0 → hits p = true →
      subBits (toCellMask (bget g p.1 p.2)) (contribMask g hits L) := by
  intro L
  induction L with
  | nil => intro hp; exact absurd hp (by simp)
  | cons q rest ih =>
    intro hp hs hh
    rw [contribMask]
    rcases List.mem_cons.mp hp with rfl | hrest
    · rw [if_pos ⟨hs, hh⟩]
      exact subBits_lor_left _ _
    · exact subBits_trans (ih hrest hs hh) (subBits_lor_right _ _)

theorem testBit_and_comp {m M i : Nat} (hi : i < 16) (hM : M.testBit i = true) :
    (m &&& (65535 ^^^ M)).testBit i = false := by
  have h65535 : (65535 : Nat).testBit i = true := by
    have : (65535 : Nat) = 2 ^ 16 - 1 := by norm_num
    rw [this, Nat.testBit_two_pow_sub_one]
    simpa using hi
  rw [Nat.testBit_and, Nat.testBit_xor, h65535, hM]
  exact Bool.and_false _

theorem log2u16_pow : ∀ k, k < 16 → log2u16 (2 ^ k) = k ∧ log2u16 (2 ^ k) = Nat.log2 (2 ^ k) := by
  intro k hk
  constructor
  · revert k
    decide
  · rw [log2_pow]
    revert k
    decide

theorem single_mask_log2 {m : Nat} (hlt : m < 512) (hone : countOnes16 m = 1) :
    log2u16 m = Nat.log2 m := by
  have hmem := countOnes16_single m hlt hone
  have hm : m = 1 ∨ m = 2 ∨ m = 4 ∨ m = 8 ∨ m = 16 ∨ m = 32 ∨ m = 64 ∨ m = 128 ∨ m = 256 := by
    simpa using hmem
  rcases hm with rfl | rfl | rfl | rfl | rfl | rfl | rfl | rfl | rfl
  · simpa using (log2u16_pow 0 (by norm_num)).2
  · simpa using (log2u16_pow 1 (by norm_num)).2
  · simpa using (log2u16_pow 2 (by norm_num)).2
  · simpa using (log2u16_pow 3 (by norm_num)).2
  · simpa using (log2u16_pow 4 (by norm_num)).2
  · simpa using (log2u16_pow 5 (by norm_num)).2
  · simpa using (log2u16_pow 6 (by norm_num)).2
  · simpa using (log2u16_pow 7 (by norm_num)).2
  · simpa using (log2u16_pow 8 (by norm_num)).2

/-!
### Concrete boards used by witnesses and counterexamples
-/

/-- The all-blank board. -/
def zeroBoard : Board := List.replicate 9 (List.replicate 9 0)

/-- A board whose only given is `1` at `(0, 0)`. -/
def oneCellBoard : Board := [[1, 0, 0, 0, 0, 0, 0, 0, 0]] ++ List.replicate 8 (List.replicate 9 0)

/-- A candidate state whose only non-empty mask is the single bit of value `1`
at `(0, 0)`. -/
def oneMaskCand : Cand := [[1, 0, 0, 0, 0, 0, 0, 0, 0]] ++ List.replicate 8 (List.replicate 9 0)

/-- A board whose first row is `1..8` followed by a blank. -/
def rowBoard : Board :=
  [[1, 2, 3, 4, 5, 6, 7, 8, 0]] ++ List.replicate 8 (List.replicate 9 0)

/-- The 27 regions (rows, columns, 3×3 boxes) of the 9×9 board. -/
def regionsList : List (List (Nat × Nat)) :=
  (List.range 9).map rowTargets ++ (List.range 9).map colTargets ++
    (List.range 3).flatMap (fun xo => (List.range 3).map (fun yo => boxCells xo yo))

/-- No region holds two solved cells with the same value. -/
def noRegionDup (g : Board) : Prop :=
  ∀ r ∈ regionsList, ∀ p ∈ r, ∀ q ∈ r, p ≠ q →
    bget g p.1 p.2 ≠ 0 → bget g q.1 q.2 ≠ 0 → bget g p.1 p.2 ≠ bget g q.1 q.2

instance : DecidablePred noRegionDup := fun g => by
  unfold noRegionDup
  infer_instance

/-!
### Staged evaluations of the concrete runs (pass by pass, phase by phase)
-/

theorem zS1 : excludeWhenSolvedVisit zeroBoard defaultCand = defaultCand := by
  decide

theorem zS2 : uniqueByColumnVisit zeroBoard defaultCand = defaultCand := by
  decide

theorem zS3 : uniqueByRowVisit zeroBoard defaultCand = defaultCand := by
  decide

theorem zS4 : uniqueBy3x3BoxVisit zeroBoard defaultCand = defaultCand := by
  decide

theorem zS5 : fillColumnUniquelyVisit zeroBoard defaultCand = defaultCand := by
  decide

theorem zS6 : fillRowUniquelyVisit zeroBoard defaultCand = defaultCand := by
  decide

theorem zS7 : fill3x3BoxUniquelyVisit zeroBoard defaultCand = defaultCand := by
  decide

theorem zS8 : applyUniques defaultCand zeroBoard = (zeroBoard, false) := by
  decide

theorem passZero : passOnce zeroBoard defaultCand = (zeroBoard, defaultCand, false) := by
  rw [passOnce_eq]
  unfold rulePhase
  rw [zS1, zS2, zS3, zS4, zS5, zS6, zS7, zS8]

def mP1c1 : Cand :=
  [[511, 511, 511, 511, 0, 511, 511, 511, 511],
   [511, 511, 0, 0, 511, 0, 0, 511, 511],
   [511, 0, 0, 511, 511, 511, 0, 0, 511],
   [511, 0, 511, 0, 511, 511, 511, 0, 511],
   [0, 511, 511, 511, 0, 511, 511, 511, 0],
   [511, 0, 511, 511, 511, 0, 511, 0, 511],
   [511, 0, 0, 511, 511, 511, 0, 0, 511],
   [511, 511, 0, 0, 511, 0, 0, 511, 511],
   [511, 511, 511, 511, 0, 511, 511, 511, 511]]

theorem mS1_1 : excludeWhenSolvedVisit mainPuzzle defaultCand = mP1c1 := by
  decide

def mP1c2 : Cand :=
  [[495, 346, 103, 470, 0, 489, 173, 398, 509],
   [495, 346, 0, 0, 347, 0, 0, 398, 509],
   [495, 0, 0, 470, 347, 489, 0, 0, 509],
   [495, 0, 103, 0, 347, 489, 173, 0, 509],
   [0, 346, 103, 470, 0, 489, 173, 398, 0],
   [495, 0, 103, 470, 347, 0, 173, 0, 509],
   [495, 0, 0, 470, 347, 489, 0, 0, 509],
   [495, 346, 0, 0, 347, 0, 0, 398, 509],
   [495, 346, 103, 470, 0, 489, 173, 398, 509]]

theorem mS1_2 : uniqueByColumnVisit mainPuzzle mP1c1 = mP1c2 := by
  decide

def mP1c3 : Cand :=
  [[367, 346, 103, 342, 0, 361, 45, 270, 381],
   [203, 74, 0, 0, 75, 0, 0, 138, 201],
   [293, 0, 0, 276, 273, 289, 0, 0, 309],
   [490, 0, 98, 0, 330, 488, 168, 0, 488],
   [0, 328, 97, 448, 0, 489, 169, 392, 0],
   [462, 0, 70, 454, 330, 0, 140, 0, 460],
   [206, 0, 0, 198, 74, 200, 0, 0, 204],
   [293, 272, 0, 0, 273, 0, 0, 260, 309],
   [463, 346, 71, 470, 0, 457, 141, 398, 477]]

theorem mS1_3 : uniqueByRowVisit mainPuzzle mP1c2 = mP1c3 := by
  decide

def mP1c4 : Cand :=
  [[359, 322, 103, 338, 0, 329, 45, 12, 61],
   [67, 66, 0, 0, 75, 0, 0, 136, 137],
   [293, 0, 0, 272, 273, 257, 0, 0, 53],
   [458, 0, 66, 0, 330, 488, 168, 0, 488],
   [0, 328, 65, 448, 0, 488, 168, 392, 0],
   [458, 0, 66, 450, 330, 0, 140, 0, 460],
   [78, 0, 0, 196, 64, 192, 0, 0, 140],
   [36, 16, 0, 0, 273, 0, 0, 260, 261],
   [78, 90, 70, 468, 0, 449, 141, 398, 397]]

theorem mS1_4 : uniqueBy3x3BoxVisit mainPuzzle mP1c3 = mP1c4 := by
  decide

def mP1c5 : Cand :=
  [[359, 322, 103, 338, 0, 329, 45, 12, 61],
   [67, 66, 0, 0, 75, 0, 0, 136, 137],
   [293, 0, 0, 272, 273, 257, 0, 0, 53],
   [458, 0, 66, 0, 330, 488, 168, 0, 488],
   [0, 328, 1, 448, 0, 488, 168, 392, 0],
   [458, 0, 66, 450, 330, 0, 140, 0, 460],
   [2, 0, 0, 196, 64, 192, 0, 0, 8],
   [32, 16, 0, 0, 273, 0, 0, 260, 261],
   [78, 90, 70, 468, 0, 449, 141, 398, 397]]

theorem mS1_5 : fillColumnUniquelyVisit mainPuzzle mP1c4 = mP1c5 := by
  decide

def mP1c6 : Cand :=
  [[359, 322, 32, 338, 0, 329, 45, 12, 61],
   [67, 66, 0, 0, 75, 0, 0, 136, 137],
   [293, 0, 0, 272, 273, 257, 0, 0, 53],
   [458, 0, 66, 0, 330, 488, 168, 0, 488],
   [0, 328, 1, 448, 0, 488, 168, 392, 0],
   [458, 0, 66, 450, 330, 0, 140, 0, 460],
   [2, 0, 0, 196, 64, 192, 0, 0, 8],
   [32, 16, 0, 0, 273, 0, 0, 260, 261],
   [78, 90, 70, 468, 0, 449, 141, 2, 397]]

theorem mS1_6 : fillRowUniquelyVisit mainPuzzle mP1c5 = mP1c6 := by
  decide

def mP1c7 : Cand :=
  [[359, 322, 32, 338, 0, 329, 45, 12, 61],
   [67, 66, 0, 0, 75, 0, 0, 136, 137],
   [293, 0, 0, 272, 273, 257, 0, 0, 53],
   [458, 0, 66, 0, 330, 488, 168, 0, 488],
   [0, 328, 1, 448, 0, 488, 168, 392, 0],
   [458, 0, 66, 450, 330, 0, 140, 0, 460],
   [2, 0, 0, 196, 64, 192, 0, 0, 8],
   [32, 16, 0, 0, 273, 0, 0, 260, 261],
   [78, 90, 70, 468, 0, 449, 141, 2, 397]]

theorem mS1_7 : fill3x3BoxUniquelyVisit mainPuzzle mP1c6 = mP1c7 := by
  decide

def mG1 : Board :=
  [[0, 0, 6, 0, 8, 0, 0, 0, 0],
   [0, 0, 5, 6, 0, 3, 9, 0, 0],
   [0, 8, 4, 0, 0, 0, 2, 7, 0],
   [0, 3, 0, 1, 0, 0, 0, 5, 0],
   [5, 0, 1, 0, 3, 0, 0, 0, 2],
   [0, 6, 0, 0, 0, 5, 0, 1, 0],
   [2, 1, 9, 0, 7, 0, 5, 6, 4],
   [6, 5, 8, 4, 0, 2, 7, 0, 0],
   [0, 0, 0, 0, 6, 0, 0, 2, 0]]

theorem mS1_8 : applyUniques mP1c7 mainPuzzle = (mG1, true) := by
  decide

theorem mPass1 : passOnce mainPuzzle defaultCand = (mG1, mP1c7, true) := by
  rw [passOnce_eq]
  unfold rulePhase
  rw [mS1_1, mS1_2, mS1_3, mS1_4, mS1_5, mS1_6, mS1_7, mS1_8]

def mP2c1 : Cand :=
  [[359, 322, 0, 338, 0, 329, 45, 12, 61],
   [67, 66, 0, 0, 75, 0, 0, 136, 137],
   [293, 0, 0, 272, 273, 257, 0, 0, 53],
   [458, 0, 66, 0, 330, 488, 168, 0, 488],
   [0, 328, 0, 448, 0, 488, 168, 392, 0],
   [458, 0, 66, 450, 330, 0, 140, 0, 460],
   [0, 0, 0, 196, 0, 192, 0, 0, 0],
   [0, 0, 0, 0, 273, 0, 0, 260, 261],
   [78, 90, 70, 468, 0, 449, 141, 0, 397]]

theorem mS2_1 : excludeWhenSolvedVisit mG1 mP1c7 = mP2c1 := by
  decide

def mP2c2 : Cand :=
  [[325, 322, 0, 338, 0, 329, 45, 12, 53],
   [65, 66, 0, 0, 11, 0, 0, 136, 129],
   [261, 0, 0, 272, 273, 257, 0, 0, 53],
   [456, 0, 66, 0, 266, 488, 168, 0, 480],
   [0, 328, 0, 448, 0, 488, 168, 392, 0],
   [456, 0, 66, 450, 266, 0, 140, 0, 452],
   [0, 0, 0, 196, 0, 192, 0, 0, 0],
   [0, 0, 0, 0, 273, 0, 0, 260, 261],
   [76, 74, 70, 468, 0, 449, 141, 0, 389]]

theorem mS2_2 : uniqueByColumnVisit mG1 mP2c1 = mP2c2 := by
  decide

def mP2c3 : Cand :=
  [[325, 322, 0, 338, 0, 329, 13, 12, 21],
   [65, 66, 0, 0, 11, 0, 0, 136, 129],
   [261, 0, 0, 272, 273, 257, 0, 0, 53],
   [456, 0, 66, 0, 266, 488, 168, 0, 480],
   [0, 328, 0, 448, 0, 488, 168, 392, 0],
   [456, 0, 66, 450, 266, 0, 140, 0, 452],
   [0, 0, 0, 132, 0, 128, 0, 0, 0],
   [0, 0, 0, 0, 257, 0, 0, 260, 261],
   [76, 72, 68, 468, 0, 449, 141, 0, 389]]

theorem mS2_3 : uniqueByRowVisit mG1 mP2c2 = mP2c3 := by
  decide

def mP2c4 : Cand :=
  [[325, 322, 0, 338, 0, 329, 13, 12, 21],
   [65, 66, 0, 0, 11, 0, 0, 136, 129],
   [261, 0, 0, 272, 273, 257, 0, 0, 53],
   [456, 0, 66, 0, 266, 488, 168, 0, 480],
   [0, 328, 0, 448, 0, 488, 168, 392, 0],
   [456, 0, 66, 450, 266, 0, 140, 0, 452],
   [0, 0, 0, 132, 0, 128, 0, 0, 0],
   [0, 0, 0, 0, 257, 0, 0, 260, 261],
   [76, 72, 68, 404, 0, 385, 133, 0, 389]]

theorem mS2_4 : uniqueBy3x3BoxVisit mG1 mP2c3 = mP2c4 := by
  decide

def mP2c5 : Cand :=
  [[325, 322, 0, 338, 0, 329, 13, 12, 21],
   [65, 66, 0, 0, 11, 0, 0, 136, 129],
   [261, 0, 0, 272, 273, 257, 0, 0, 32],
   [456, 0, 66, 0, 266, 488, 168, 0, 480],
   [0, 328, 0, 448, 0, 488, 168, 392, 0],
   [456, 0, 66, 450, 266, 0, 140, 0, 452],
   [0, 0, 0, 4, 0, 128, 0, 0, 0],
   [0, 0, 0, 0, 257, 0, 0, 260, 261],
   [76, 72, 68, 16, 0, 385, 133, 0, 389]]

theorem mS2_5 : fillColumnUniquelyVisit mG1 mP2c4 = mP2c5 := by
  decide

def mP2c6 : Cand :=
  [[325, 322, 0, 338, 0, 329, 13, 12, 16],
   [65, 66, 0, 0, 11, 0, 0, 136, 129],
   [261, 0, 0, 272, 16, 257, 0, 0, 32],
   [456, 0, 66, 0, 266, 488, 168, 0, 480],
   [0, 328, 0, 448, 0, 488, 168, 392, 0],
   [456, 0, 66, 450, 266, 0, 140, 0, 452],
   [0, 0, 0, 4, 0, 128, 0, 0, 0],
   [0, 0, 0, 0, 257, 0, 0, 260, 261],
   [76, 72, 4, 16, 0, 385, 133, 0, 389]]

theorem mS2_6 : fillRowUniquelyVisit mG1 mP2c5 = mP2c6 := by
  decide

def mP2c7 : Cand :=
  [[325, 322, 0, 338, 0, 329, 13, 12, 16],
   [65, 66, 0, 0, 11, 0, 0, 136, 129],
   [261, 0, 0, 272, 16, 257, 0, 0, 32],
   [456, 0, 66, 0, 266, 488, 168, 0, 480],
   [0, 328, 0, 448, 0, 488, 168, 392, 0],
   [456, 0, 66, 450, 266, 0, 140, 0, 452],
   [0, 0, 0, 4, 0, 128, 0, 0, 0],
   [0, 0, 0, 0, 257, 0, 0, 260, 261],
   [76, 72, 4, 16, 0, 385, 133, 0, 389]]

theorem mS2_7 : fill3x3BoxUniquelyVisit mG1 mP2c6 = mP2c7 := by
  decide

def mG2 : Board :=
  [[0, 0, 6, 0, 8, 0, 0, 0, 5],
   [0, 0, 5, 6, 0, 3, 9, 0, 0],
   [0, 8, 4, 0, 5, 0, 2, 7, 6],
   [0, 3, 0, 1, 0, 0, 0, 5, 0],
   [5, 0, 1, 0, 3, 0, 0, 0, 2],
   [0, 6, 0, 0, 0, 5, 0, 1, 0],
   [2, 1, 9, 3, 7, 8, 5, 6, 4],
   [6, 5, 8, 4, 0, 2, 7, 0, 0],
   [0, 0, 3, 5, 6, 0, 0, 2, 0]]

theorem mS2_8 : applyUniques mP2c7 mG1 = (mG2, true) := by
  decide

theorem mPass2 : passOnce mG1 mP1c7 = (mG2, mP2c7, true) := by
  rw [passOnce_eq]
  unfold rulePhase
  rw [mS2_1, mS2_2, mS2_3, mS2_4, mS2_5, mS2_6, mS2_7, mS2_8]

def mP3c1 : Cand :=
  [[325, 322, 0, 338, 0, 329, 13, 12, 0],
   [65, 66, 0, 0, 11, 0, 0, 136, 129],
   [261, 0, 0, 272, 0, 257, 0, 0, 0],
   [456, 0, 66, 0, 266, 488, 168, 0, 480],
   [0, 328, 0, 448, 0, 488, 168, 392, 0],
   [456, 0, 66, 450, 266, 0, 140, 0, 452],
   [0, 0, 0, 0, 0, 0, 0, 0, 0],
   [0, 0, 0, 0, 257, 0, 0, 260, 261],
   [76, 72, 0, 0, 0, 385, 133, 0, 389]]

theorem mS3_1 : excludeWhenSolvedVisit mG2 mP2c7 = mP3c1 := by
  decide

def mP3c2 : Cand :=
  [[325, 322, 0, 322, 0, 329, 13, 12, 0],
   [65, 66, 0, 0, 11, 0, 0, 136, 129],
   [261, 0, 0, 256, 0, 257, 0, 0, 0],
   [456, 0, 66, 0, 266, 360, 168, 0, 448],
   [0, 328, 0, 448, 0, 360, 168, 392, 0],
   [456, 0, 66, 450, 266, 0, 140, 0, 452],
   [0, 0, 0, 0, 0, 0, 0, 0, 0],
   [0, 0, 0, 0, 257, 0, 0, 260, 261],
   [76, 72, 0, 0, 0, 257, 133, 0, 389]]

theorem mS3_2 : uniqueByColumnVisit mG2 mP3c1 = mP3c2 := by
  decide

def mP3c3 : Cand :=
  [[325, 322, 0, 322, 0, 329, 13, 12, 0],
   [65, 66, 0, 0, 11, 0, 0, 136, 129],
   [261, 0, 0, 256, 0, 257, 0, 0, 0],
   [456, 0, 66, 0, 266, 360, 168, 0, 448],
   [0, 328, 0, 448, 0, 360, 168, 392, 0],
   [456, 0, 66, 450, 266, 0, 140, 0, 452],
   [0, 0, 0, 0, 0, 0, 0, 0, 0],
   [0, 0, 0, 0, 257, 0, 0, 260, 261],
   [72, 72, 0, 0, 0, 257, 129, 0, 385]]

theorem mS3_3 : uniqueByRowVisit mG2 mP3c2 = mP3c3 := by
  decide

def mP3c4 : Cand :=
  [[325, 322, 0, 322, 0, 329, 13, 12, 0],
   [65, 66, 0, 0, 11, 0, 0, 136, 129],
   [261, 0, 0, 256, 0, 257, 0, 0, 0],
   [456, 0, 66, 0, 266, 360, 168, 0, 448],
   [0, 328, 0, 448, 0, 360, 168, 392, 0],
   [456, 0, 66, 450, 266, 0, 140, 0, 452],
   [0, 0, 0, 0, 0, 0, 0, 0, 0],
   [0, 0, 0, 0, 257, 0, 0, 260, 261],
   [72, 72, 0, 0, 0, 257, 129, 0, 385]]

theorem mS3_4 : uniqueBy3x3BoxVisit mG2 mP3c3 = mP3c4 := by
  decide

def mP3c5 : Cand :=
  [[325, 322, 0, 322, 0, 329, 13, 12, 0],
   [65, 66, 0, 0, 11, 0, 0, 136, 129],
   [4, 0, 0, 256, 0, 257, 0, 0, 0],
   [456, 0, 66, 0, 266, 360, 168, 0, 448],
   [0, 328, 0, 448, 0, 360, 168, 392, 0],
   [456, 0, 66, 450, 266, 0, 140, 0, 452],
   [0, 0, 0, 0, 0, 0, 0, 0, 0],
   [0, 0, 0, 0, 257, 0, 0, 260, 261],
   [72, 72, 0, 0, 0, 257, 129, 0, 385]]

theorem mS3_5 : fillColumnUniquelyVisit mG2 mP3c4 = mP3c5 := by
  decide

def mP3c6 : Cand :=
  [[325, 322, 0, 322, 0, 329, 13, 12, 0],
   [65, 66, 0, 0, 11, 0, 0, 136, 129],
   [4, 0, 0, 256, 0, 257, 0, 0, 0],
   [456, 0, 66, 0, 266, 360, 168, 0, 448],
   [0, 328, 0, 448, 0, 360, 168, 392, 0],
   [456, 0, 66, 450, 266, 0, 140, 0, 452],
   [0, 0, 0, 0, 0, 0, 0, 0, 0],
   [0, 0, 0, 0, 257, 0, 0, 260, 261],
   [72, 72, 0, 0, 0, 257, 129, 0, 385]]

theorem mS3_6 : fillRowUniquelyVisit mG2 mP3c5 = mP3c6 := by
  decide

def mP3c7 : Cand :=
  [[325, 322, 0, 322, 0, 329, 13, 12, 0],
   [65, 66, 0, 0, 11, 0, 0, 136, 129],
   [4, 0, 0, 256, 0, 257, 0, 0, 0],
   [456, 0, 66, 0, 266, 360, 168, 0, 448],
   [0, 328, 0, 448, 0, 360, 168, 392, 0],
   [456, 0, 66, 450, 266, 0, 140, 0, 452],
   [0, 0, 0, 0, 0, 0, 0, 0, 0],
   [0, 0, 0, 0, 257, 0, 0, 260, 261],
   [72, 72, 0, 0, 0, 257, 129, 0, 385]]

theorem mS3_7 : fill3x3BoxUniquelyVisit mG2 mP3c6 = mP3c7 := by
  decide

def mG3 : Board :=
  [[0, 0, 6, 0, 8, 0, 0, 0, 5],
   [0, 0, 5, 6, 0, 3, 9, 0, 0],
   [3, 8, 4, 9, 5, 0, 2, 7, 6],
   [0, 3, 0, 1, 0, 0, 0, 5, 0],
   [5, 0, 1, 0, 3, 0, 0, 0, 2],
   [0, 6, 0, 0, 0, 5, 0, 1, 0],
   [2, 1, 9, 3, 7, 8, 5, 6, 4],
   [6, 5, 8, 4, 0, 2, 7, 0, 0],
   [0, 0, 3, 5, 6, 0, 0, 2, 0]]

theorem mS3_8 : applyUniques mP3c7 mG2 = (mG3, true) := by
  decide

theorem mPass3 : passOnce mG2 mP2c7 = (mG3, mP3c7, true) := by
  rw [passOnce_eq]
  unfold rulePhase
  rw [mS3_1, mS3_2, mS3_3, mS3_4, mS3_5, mS3_6, mS3_7, mS3_8]

def mP4c1 : Cand :=
  [[325, 322, 0, 322, 0, 329, 13, 12, 0],
   [65, 66, 0, 0, 11, 0, 0, 136, 129],
   [0, 0, 0, 0, 0, 257, 0, 0, 0],
   [456, 0, 66, 0, 266, 360, 168, 0, 448],
   [0, 328, 0, 448, 0, 360, 168, 392, 0],
   [456, 0, 66, 450, 266, 0, 140, 0, 452],
   [0, 0, 0, 0, 0, 0, 0, 0, 0],
   [0, 0, 0, 0, 257, 0, 0, 260, 261],
   [72, 72, 0, 0, 0, 257, 129, 0, 385]]

theorem mS4_1 : excludeWhenSolvedVisit mG3 mP3c7 = mP4c1 := by
  decide

def mP4c2 : Cand :=
  [[321, 322, 0, 66, 0, 329, 13, 12, 0],
   [65, 66, 0, 0, 11, 0, 0, 136, 129],
   [0, 0, 0, 0, 0, 257, 0, 0, 0],
   [456, 0, 66, 0, 266, 360, 168, 0, 448],
   [0, 328, 0, 192, 0, 360, 168, 392, 0],
   [456, 0, 66, 194, 266, 0, 140, 0, 452],
   [0, 0, 0, 0, 0, 0, 0, 0, 0],
   [0, 0, 0, 0, 257, 0, 0, 260, 261],
   [72, 72, 0, 0, 0, 257, 129, 0, 385]]

theorem mS4_2 : uniqueByColumnVisit mG3 mP4c1 = mP4c2 := by
  decide

def mP4c3 : Cand :=
  [[321, 322, 0, 66, 0, 329, 13, 12, 0],
   [65, 66, 0, 0, 11, 0, 0, 136, 129],
   [0, 0, 0, 0, 0, 1, 0, 0, 0],
   [456, 0, 66, 0, 266, 360, 168, 0, 448],
   [0, 328, 0, 192, 0, 360, 168, 392, 0],
   [456, 0, 66, 194, 266, 0, 140, 0, 452],
   [0, 0, 0, 0, 0, 0, 0, 0, 0],
   [0, 0, 0, 0, 257, 0, 0, 260, 261],
   [72, 72, 0, 0, 0, 257, 129, 0, 385]]

theorem mS4_3 : uniqueByRowVisit mG3 mP4c2 = mP4c3 := by
  decide

def mP4c4 : Cand :=
  [[321, 322, 0, 66, 0, 73, 13, 12, 0],
   [65, 66, 0, 0, 11, 0, 0, 136, 129],
   [0, 0, 0, 0, 0, 1, 0, 0, 0],
   [456, 0, 66, 0, 266, 360, 168, 0, 448],
   [0, 328, 0, 192, 0, 360, 168, 392, 0],
   [456, 0, 66, 194, 266, 0, 140, 0, 452],
   [0, 0, 0, 0, 0, 0, 0, 0, 0],
   [0, 0, 0, 0, 257, 0, 0, 260, 261],
   [72, 72, 0, 0, 0, 257, 129, 0, 385]]

theorem mS4_4 : uniqueBy3x3BoxVisit mG3 mP4c3 = mP4c4 := by
  decide

def mP4c5 : Cand :=
  [[321, 322, 0, 66, 0, 73, 13, 12, 0],
   [65, 66, 0, 0, 11, 0, 0, 136, 129],
   [0, 0, 0, 0, 0, 1, 0, 0, 0],
   [456, 0, 66, 0, 266, 360, 168, 0, 448],
   [0, 328, 0, 192, 0, 360, 168, 392, 0],
   [456, 0, 66, 194, 266, 0, 140, 0, 452],
   [0, 0, 0, 0, 0, 0, 0, 0, 0],
   [0, 0, 0, 0, 257, 0, 0, 260, 261],
   [72, 72, 0, 0, 0, 257, 129, 0, 385]]

theorem mS4_5 : fillColumnUniquelyVisit mG3 mP4c4 = mP4c5 := by
  decide

def mP4c6 : Cand :=
  [[321, 322, 0, 66, 0, 73, 13, 12, 0],
   [65, 66, 0, 0, 11, 0, 0, 136, 129],
   [0, 0, 0, 0, 0, 1, 0, 0, 0],
   [456, 0, 66, 0, 266, 360, 168, 0, 448],
   [0, 328, 0, 192, 0, 360, 168, 392, 0],
   [456, 0, 66, 194, 266, 0, 140, 0, 452],
   [0, 0, 0, 0, 0, 0, 0, 0, 0],
   [0, 0, 0, 0, 257, 0, 0, 260, 261],
   [72, 72, 0, 0, 0, 257, 129, 0, 385]]

theorem mS4_6 : fillRowUniquelyVisit mG3 mP4c5 = mP4c6 := by
  decide

def mP4c7 : Cand :=
  [[321, 322, 0, 66, 0, 73, 13, 12, 0],
   [65, 66, 0, 0, 11, 0, 0, 136, 129],
   [0, 0, 0, 0, 0, 1, 0, 0, 0],
   [456, 0, 66, 0, 266, 360, 168, 0, 448],
   [0, 328, 0, 192, 0, 360, 168, 392, 0],
   [456, 0, 66, 194, 266, 0, 140, 0, 452],
   [0, 0, 0, 0, 0, 0, 0, 0, 0],
   [0, 0, 0, 0, 257, 0, 0, 260, 261],
   [72, 72, 0, 0, 0, 257, 129, 0, 385]]

theorem mS4_7 : fill3x3BoxUniquelyVisit mG3 mP4c6 = mP4c7 := by
  decide

def mG4 : Board :=
  [[0, 0, 6, 0, 8, 0, 0, 0, 5],
   [0, 0, 5, 6, 0, 3, 9, 0, 0],
   [3, 8, 4, 9, 5, 1, 2, 7, 6],
   [0, 3, 0, 1, 0, 0, 0, 5, 0],
   [5, 0, 1, 0, 3, 0, 0, 0, 2],
   [0, 6, 0, 0, 0, 5, 0, 1, 0],
   [2, 1, 9, 3, 7, 8, 5, 6, 4],
   [6, 5, 8, 4, 0, 2, 7, 0, 0],
   [0, 0, 3, 5, 6, 0, 0, 2, 0]]

theorem mS4_8 : applyUniques mP4c7 mG3 = (mG4, true) := by
  decide

theorem mPass4 : passOnce mG3 mP3c7 = (mG4, mP4c7, true) := by
  rw [passOnce_eq]
  unfold rulePhase
  rw [mS4_1, mS4_2, mS4_3, mS4_4, mS4_5, mS4_6, mS4_7, mS4_8]

def mP5c1 : Cand :=
  [[321, 322, 0, 66, 0, 73, 13, 12, 0],
   [65, 66, 0, 0, 11, 0, 0, 136, 129],
   [0, 0, 0, 0, 0, 0, 0, 0, 0],
   [456, 0, 66, 0, 266, 360, 168, 0, 448],
   [0, 328, 0, 192, 0, 360, 168, 392, 0],
   [456, 0, 66, 194, 266, 0, 140, 0, 452],
   [0, 0, 0, 0, 0, 0, 0, 0, 0],
   [0, 0, 0, 0, 257, 0, 0, 260, 261],
   [72, 72, 0, 0, 0, 257, 129, 0, 385]]

theorem mS5_1 : excludeWhenSolvedVisit mG4 mP4c7 = mP5c1 := by
  decide

def mP5c2 : Cand :=
  [[321, 322, 0, 66, 0, 72, 13, 12, 0],
   [65, 66, 0, 0, 11, 0, 0, 136, 129],
   [0, 0, 0, 0, 0, 0, 0, 0, 0],
   [456, 0, 66, 0, 266, 360, 168, 0, 448],
   [0, 328, 0, 192, 0, 360, 168, 392, 0],
   [456, 0, 66, 194, 266, 0, 140, 0, 452],
   [0, 0, 0, 0, 0, 0, 0, 0, 0],
   [0, 0, 0, 0, 257, 0, 0, 260, 261],
   [72, 72, 0, 0, 0, 256, 129, 0, 385]]

theorem mS5_2 : uniqueByColumnVisit mG4 mP5c1 = mP5c2 := by
  decide

def mP5c3 : Cand :=
  [[321, 322, 0, 66, 0, 72, 13, 12, 0],
   [65, 66, 0, 0, 11, 0, 0, 136, 129],
   [0, 0, 0, 0, 0, 0, 0, 0, 0],
   [456, 0, 66, 0, 266, 360, 168, 0, 448],
   [0, 328, 0, 192, 0, 360, 168, 392, 0],
   [456, 0, 66, 194, 266, 0, 140, 0, 452],
   [0, 0, 0, 0, 0, 0, 0, 0, 0],
   [0, 0, 0, 0, 257, 0, 0, 260, 261],
   [72, 72, 0, 0, 0, 256, 129, 0, 385]]

theorem mS5_3 : uniqueByRowVisit mG4 mP5c2 = mP5c3 := by
  decide

def mP5c4 : Cand :=
  [[321, 322, 0, 66, 0, 72, 13, 12, 0],
   [65, 66, 0, 0, 10, 0, 0, 136, 129],
   [0, 0, 0, 0, 0, 0, 0, 0, 0],
   [456, 0, 66, 0, 266, 360, 168, 0, 448],
   [0, 328, 0, 192, 0, 360, 168, 392, 0],
   [456, 0, 66, 194, 266, 0, 140, 0, 452],
   [0, 0, 0, 0, 0, 0, 0, 0, 0],
   [0, 0, 0, 0, 257, 0, 0, 260, 261],
   [72, 72, 0, 0, 0, 256, 129, 0, 385]]

theorem mS5_4 : uniqueBy3x3BoxVisit mG4 mP5c3 = mP5c4 := by
  decide

def mP5c5 : Cand :=
  [[321, 322, 0, 66, 0, 72, 13, 12, 0],
   [65, 66, 0, 0, 10, 0, 0, 136, 129],
   [0, 0, 0, 0, 0, 0, 0, 0, 0],
   [456, 0, 66, 0, 266, 360, 168, 0, 448],
   [0, 328, 0, 192, 0, 360, 168, 392, 0],
   [456, 0, 66, 194, 266, 0, 140, 0, 452],
   [0, 0, 0, 0, 0, 0, 0, 0, 0],
   [0, 0, 0, 0, 257, 0, 0, 260, 261],
   [72, 72, 0, 0, 0, 256, 129, 0, 385]]

theorem mS5_5 : fillColumnUniquelyVisit mG4 mP5c4 = mP5c5 := by
  decide

def mP5c6 : Cand :=
  [[321, 322, 0, 66, 0, 72, 13, 12, 0],
   [65, 66, 0, 0, 10, 0, 0, 136, 129],
   [0, 0, 0, 0, 0, 0, 0, 0, 0],
   [456, 0, 66, 0, 266, 360, 168, 0, 448],
   [0, 328, 0, 192, 0, 360, 168, 392, 0],
   [456, 0, 66, 194, 266, 0, 140, 0, 452],
   [0, 0, 0, 0, 0, 0, 0, 0, 0],
   [0, 0, 0, 0, 1, 0, 0, 260, 261],
   [72, 72, 0, 0, 0, 256, 129, 0, 385]]

theorem mS5_6 : fillRowUniquelyVisit mG4 mP5c5 = mP5c6 := by
  decide

def mP5c7 : Cand :=
  [[321, 322, 0, 66, 0, 72, 13, 12, 0],
   [65, 66, 0, 0, 10, 0, 0, 136, 129],
   [0, 0, 0, 0, 0, 0, 0, 0, 0],
   [456, 0, 66, 0, 266, 360, 168, 0, 448],
   [0, 328, 0, 192, 0, 360, 168, 392, 0],
   [456, 0, 66, 194, 266, 0, 140, 0, 452],
   [0, 0, 0, 0, 0, 0, 0, 0, 0],
   [0, 0, 0, 0, 1, 0, 0, 260, 261],
   [72, 72, 0, 0, 0, 256, 129, 0, 385]]

theorem mS5_7 : fill3x3BoxUniquelyVisit mG4 mP5c6 = mP5c7 := by
  decide

def mG5 : Board :=
  [[0, 0, 6, 0, 8, 0, 0, 0, 5],
   [0, 0, 5, 6, 0, 3, 9, 0, 0],
   [3, 8, 4, 9, 5, 1, 2, 7, 6],
   [0, 3, 0, 1, 0, 0, 0, 5, 0],
   [5, 0, 1, 0, 3, 0, 0, 0, 2],
   [0, 6, 0, 0, 0, 5, 0, 1, 0],
   [2, 1, 9, 3, 7, 8, 5, 6, 4],
   [6, 5, 8, 4, 1, 2, 7, 0, 0],
   [0, 0, 3, 5, 6, 9, 0, 2, 0]]

theorem mS5_8 : applyUniques mP5c7 mG4 = (mG5, true) := by
  decide

theorem mPass5 : passOnce mG4 mP4c7 = (mG5, mP5c7, true) := by
  rw [passOnce_eq]
  unfold rulePhase
  rw [mS5_1, mS5_2, mS5_3, mS5_4, mS5_5, mS5_6, mS5_7, mS5_8]

def mP6c1 : Cand :=
  [[321, 322, 0, 66, 0, 72, 13, 12, 0],
   [65, 66, 0, 0, 10, 0, 0, 136, 129],
   [0, 0, 0, 0, 0, 0, 0, 0, 0],
   [456, 0, 66, 0, 266, 360, 168, 0, 448],
   [0, 328, 0, 192, 0, 360, 168, 392, 0],
   [456, 0, 66, 194, 266, 0, 140, 0, 452],
   [0, 0, 0, 0, 0, 0, 0, 0, 0],
   [0, 0, 0, 0, 0, 0, 0, 260, 261],
   [72, 72, 0, 0, 0, 0, 129, 0, 385]]

theorem mS6_1 : excludeWhenSolvedVisit mG5 mP5c7 = mP6c1 := by
  decide

def mP6c2 : Cand :=
  [[321, 322, 0, 66, 0, 72, 13, 12, 0],
   [65, 66, 0, 0, 10, 0, 0, 136, 129],
   [0, 0, 0, 0, 0, 0, 0, 0, 0],
   [456, 0, 66, 0, 266, 104, 168, 0, 448],
   [0, 328, 0, 192, 0, 104, 168, 392, 0],
   [456, 0, 66, 194, 266, 0, 140, 0, 452],
   [0, 0, 0, 0, 0, 0, 0, 0, 0],
   [0, 0, 0, 0, 0, 0, 0, 260, 261],
   [72, 72, 0, 0, 0, 0, 129, 0, 385]]

theorem mS6_2 : uniqueByColumnVisit mG5 mP6c1 = mP6c2 := by
  decide

def mP6c3 : Cand :=
  [[321, 322, 0, 66, 0, 72, 13, 12, 0],
   [65, 66, 0, 0, 10, 0, 0, 136, 129],
   [0, 0, 0, 0, 0, 0, 0, 0, 0],
   [456, 0, 66, 0, 266, 104, 168, 0, 448],
   [0, 328, 0, 192, 0, 104, 168, 392, 0],
   [456, 0, 66, 194, 266, 0, 140, 0, 452],
   [0, 0, 0, 0, 0, 0, 0, 0, 0],
   [0, 0, 0, 0, 0, 0, 0, 260, 260],
   [72, 72, 0, 0, 0, 0, 129, 0, 129]]

theorem mS6_3 : uniqueByRowVisit mG5 mP6c2 = mP6c3 := by
  decide

def mP6c4 : Cand :=
  [[321, 322, 0, 66, 0, 72, 13, 12, 0],
   [65, 66, 0, 0, 10, 0, 0, 136, 129],
   [0, 0, 0, 0, 0, 0, 0, 0, 0],
   [456, 0, 66, 0, 266, 104, 168, 0, 448],
   [0, 328, 0, 192, 0, 104, 168, 392, 0],
   [456, 0, 66, 194, 266, 0, 140, 0, 452],
   [0, 0, 0, 0, 0, 0, 0, 0, 0],
   [0, 0, 0, 0, 0, 0, 0, 260, 260],
   [72, 72, 0, 0, 0, 0, 129, 0, 129]]

theorem mS6_4 : uniqueBy3x3BoxVisit mG5 mP6c3 = mP6c4 := by
  decide

def mP6c5 : Cand :=
  [[321, 322, 0, 66, 0, 72, 13, 12, 0],
   [65, 66, 0, 0, 10, 0, 0, 136, 129],
   [0, 0, 0, 0, 0, 0, 0, 0, 0],
   [456, 0, 66, 0, 266, 104, 168, 0, 448],
   [0, 328, 0, 192, 0, 104, 168, 392, 0],
   [456, 0, 66, 194, 266, 0, 140, 0, 452],
   [0, 0, 0, 0, 0, 0, 0, 0, 0],
   [0, 0, 0, 0, 0, 0, 0, 260, 260],
   [72, 72, 0, 0, 0, 0, 129, 0, 129]]

theorem mS6_5 : fillColumnUniquelyVisit mG5 mP6c4 = mP6c5 := by
  decide

def mP6c6 : Cand :=
  [[321, 322, 0, 66, 0, 72, 13, 12, 0],
   [65, 66, 0, 0, 10, 0, 0, 136, 129],
   [0, 0, 0, 0, 0, 0, 0, 0, 0],
   [456, 0, 66, 0, 266, 104, 168, 0, 448],
   [0, 328, 0, 192, 0, 104, 168, 392, 0],
   [456, 0, 66, 194, 266, 0, 140, 0, 452],
   [0, 0, 0, 0, 0, 0, 0, 0, 0],
   [0, 0, 0, 0, 0, 0, 0, 260, 260],
   [72, 72, 0, 0, 0, 0, 129, 0, 129]]

theorem mS6_6 : fillRowUniquelyVisit mG5 mP6c5 = mP6c6 := by
  decide

def mP6c7 : Cand :=
  [[321, 322, 0, 66, 0, 72, 13, 12, 0],
   [65, 66, 0, 0, 10, 0, 0, 136, 129],
   [0, 0, 0, 0, 0, 0, 0, 0, 0],
   [456, 0, 66, 0, 266, 104, 168, 0, 448],
   [0, 328, 0, 192, 0, 104, 168, 392, 0],
   [456, 0, 66, 194, 266, 0, 140, 0, 452],
   [0, 0, 0, 0, 0, 0, 0, 0, 0],
   [0, 0, 0, 0, 0, 0, 0, 260, 260],
   [72, 72, 0, 0, 0, 0, 129, 0, 129]]

theorem mS6_7 : fill3x3BoxUniquelyVisit mG5 mP6c6 = mP6c7 := by
  decide

def mG6 : Board :=
  [[0, 0, 6, 0, 8, 0, 0, 0, 5],
   [0, 0, 5, 6, 0, 3, 9, 0, 0],
   [3, 8, 4, 9, 5, 1, 2, 7, 6],
   [0, 3, 0, 1, 0, 0, 0, 5, 0],
   [5, 0, 1, 0, 3, 0, 0, 0, 2],
   [0, 6, 0, 0, 0, 5, 0, 1, 0],
   [2, 1, 9, 3, 7, 8, 5, 6, 4],
   [6, 5, 8, 4, 1, 2, 7, 0, 0],
   [0, 0, 3, 5, 6, 9, 0, 2, 0]]

theorem mS6_8 : applyUniques mP6c7 mG5 = (mG6, false) := by
  decide

theorem mPass6 : passOnce mG5 mP5c7 = (mG6, mP6c7, false) := by
  rw [passOnce_eq]
  unfold rulePhase
  rw [mS6_1, mS6_2, mS6_3, mS6_4, mS6_5, mS6_6, mS6_7, mS6_8]

def rP1c1 : Cand :=
  [[0, 0, 0, 0, 0, 0, 0, 0, 511],
   [511, 511, 511, 511, 511, 511, 511, 511, 511],
   [511, 511, 511, 511, 511, 511, 511, 511, 511],
   [511, 511, 511, 511, 511, 511, 511, 511, 511],
   [511, 511, 511, 511, 511, 511, 511, 511, 511],
   [511, 511, 511, 511, 511, 511, 511, 511, 511],
   [511, 511, 511, 511, 511, 511, 511, 511, 511],
   [511, 511, 511, 511, 511, 511, 511, 511, 511],
   [511, 511, 511, 511, 511, 511, 511, 511, 511]]

theorem rS1_1 : excludeWhenSolvedVisit rowBoard defaultCand = rP1c1 := by
  decide

def rP1c2 : Cand :=
  [[0, 0, 0, 0, 0, 0, 0, 0, 511],
   [510, 509, 507, 503, 495, 479, 447, 383, 511],
   [510, 509, 507, 503, 495, 479, 447, 383, 511],
   [510, 509, 507, 503, 495, 479, 447, 383, 511],
   [510, 509, 507, 503, 495, 479, 447, 383, 511],
   [510, 509, 507, 503, 495, 479, 447, 383, 511],
   [510, 509, 507, 503, 495, 479, 447, 383, 511],
   [510, 509, 507, 503, 495, 479, 447, 383, 511],
   [510, 509, 507, 503, 495, 479, 447, 383, 511]]

theorem rS1_2 : uniqueByColumnVisit rowBoard rP1c1 = rP1c2 := by
  decide

def rP1c3 : Cand :=
  [[0, 0, 0, 0, 0, 0, 0, 0, 256],
   [510, 509, 507, 503, 495, 479, 447, 383, 511],
   [510, 509, 507, 503, 495, 479, 447, 383, 511],
   [510, 509, 507, 503, 495, 479, 447, 383, 511],
   [510, 509, 507, 503, 495, 479, 447, 383, 511],
   [510, 509, 507, 503, 495, 479, 447, 383, 511],
   [510, 509, 507, 503, 495, 479, 447, 383, 511],
   [510, 509, 507, 503, 495, 479, 447, 383, 511],
   [510, 509, 507, 503, 495, 479, 447, 383, 511]]

theorem rS1_3 : uniqueByRowVisit rowBoard rP1c2 = rP1c3 := by
  decide

def rP1c4 : Cand :=
  [[0, 0, 0, 0, 0, 0, 0, 0, 256],
   [504, 504, 504, 455, 455, 455, 319, 319, 319],
   [504, 504, 504, 455, 455, 455, 319, 319, 319],
   [510, 509, 507, 503, 495, 479, 447, 383, 511],
   [510, 509, 507, 503, 495, 479, 447, 383, 511],
   [510, 509, 507, 503, 495, 479, 447, 383, 511],
   [510, 509, 507, 503, 495, 479, 447, 383, 511],
   [510, 509, 507, 503, 495, 479, 447, 383, 511],
   [510, 509, 507, 503, 495, 479, 447, 383, 511]]

theorem rS1_4 : uniqueBy3x3BoxVisit rowBoard rP1c3 = rP1c4 := by
  decide

def rP1c5 : Cand :=
  [[0, 0, 0, 0, 0, 0, 0, 0, 256],
   [504, 504, 504, 455, 455, 455, 319, 319, 319],
   [504, 504, 504, 455, 455, 455, 319, 319, 319],
   [510, 509, 507, 503, 495, 479, 447, 383, 511],
   [510, 509, 507, 503, 495, 479, 447, 383, 511],
   [510, 509, 507, 503, 495, 479, 447, 383, 511],
   [510, 509, 507, 503, 495, 479, 447, 383, 511],
   [510, 509, 507, 503, 495, 479, 447, 383, 511],
   [510, 509, 507, 503, 495, 479, 447, 383, 511]]

theorem rS1_5 : fillColumnUniquelyVisit rowBoard rP1c4 = rP1c5 := by
  decide

def rP1c6 : Cand :=
  [[0, 0, 0, 0, 0, 0, 0, 0, 256],
   [504, 504, 504, 455, 455, 455, 319, 319, 319],
   [504, 504, 504, 455, 455, 455, 319, 319, 319],
   [510, 509, 507, 503, 495, 479, 447, 383, 511],
   [510, 509, 507, 503, 495, 479, 447, 383, 511],
   [510, 509, 507, 503, 495, 479, 447, 383, 511],
   [510, 509, 507, 503, 495, 479, 447, 383, 511],
   [510, 509, 507, 503, 495, 479, 447, 383, 511],
   [510, 509, 507, 503, 495, 479, 447, 383, 511]]

theorem rS1_6 : fillRowUniquelyVisit rowBoard rP1c5 = rP1c6 := by
  decide

def rP1c7 : Cand :=
  [[0, 0, 0, 0, 0, 0, 0, 0, 256],
   [504, 504, 504, 455, 455, 455, 319, 319, 319],
   [504, 504, 504, 455, 455, 455, 319, 319, 319],
   [510, 509, 507, 503, 495, 479, 447, 383, 511],
   [510, 509, 507, 503, 495, 479, 447, 383, 511],
   [510, 509, 507, 503, 495, 479, 447, 383, 511],
   [510, 509, 507, 503, 495, 479, 447, 383, 511],
   [510, 509, 507, 503, 495, 479, 447, 383, 511],
   [510, 509, 507, 503, 495, 479, 447, 383, 511]]

theorem rS1_7 : fill3x3BoxUniquelyVisit rowBoard rP1c6 = rP1c7 := by
  decide

def rG1 : Board :=
  [[1, 2, 3, 4, 5, 6, 7, 8, 9],
   [0, 0, 0, 0, 0, 0, 0, 0, 0],
   [0, 0, 0, 0, 0, 0, 0, 0, 0],
   [0, 0, 0, 0, 0, 0, 0, 0, 0],
   [0, 0, 0, 0, 0, 0, 0, 0, 0],
   [0, 0, 0, 0, 0, 0, 0, 0, 0],
   [0, 0, 0, 0, 0, 0, 0, 0, 0],
   [0, 0, 0, 0, 0, 0, 0, 0, 0],
   [0, 0, 0, 0, 0, 0, 0, 0, 0]]

theorem rS1_8 : applyUniques rP1c7 rowBoard = (rG1, true) := by
  decide

theorem rPass1 : passOnce rowBoard defaultCand = (rG1, rP1c7, true) := by
  rw [passOnce_eq]
  unfold rulePhase
  rw [rS1_1, rS1_2, rS1_3, rS1_4, rS1_5, rS1_6, rS1_7, rS1_8]

def rP2c1 : Cand :=
  [[0, 0, 0, 0, 0, 0, 0, 0, 0],
   [504, 504, 504, 455, 455, 455, 319, 319, 319],
   [504, 504, 504, 455, 455, 455, 319, 319, 319],
   [510, 509, 507, 503, 495, 479, 447, 383, 511],
   [510, 509, 507, 503, 495, 479, 447, 383, 511],
   [510, 509, 507, 503, 495, 479, 447, 383, 511],
   [510, 509, 507, 503, 495, 479, 447, 383, 511],
   [510, 509, 507, 503, 495, 479, 447, 383, 511],
   [510, 509, 507, 503, 495, 479, 447, 383, 511]]

theorem rS2_1 : excludeWhenSolvedVisit rG1 rP1c7 = rP2c1 := by
  decide

def rP2c2 : Cand :=
  [[0, 0, 0, 0, 0, 0, 0, 0, 0],
   [504, 504, 504, 455, 455, 455, 319, 319, 63],
   [504, 504, 504, 455, 455, 455, 319, 319, 63],
   [510, 509, 507, 503, 495, 479, 447, 383, 255],
   [510, 509, 507, 503, 495, 479, 447, 383, 255],
   [510, 509, 507, 503, 495, 479, 447, 383, 255],
   [510, 509, 507, 503, 495, 479, 447, 383, 255],
   [510, 509, 507, 503, 495, 479, 447, 383, 255],
   [510, 509, 507, 503, 495, 479, 447, 383, 255]]

theorem rS2_2 : uniqueByColumnVisit rG1 rP2c1 = rP2c2 := by
  decide

def rP2c3 : Cand :=
  [[0, 0, 0, 0, 0, 0, 0, 0, 0],
   [504, 504, 504, 455, 455, 455, 319, 319, 63],
   [504, 504, 504, 455, 455, 455, 319, 319, 63],
   [510, 509, 507, 503, 495, 479, 447, 383, 255],
   [510, 509, 507, 503, 495, 479, 447, 383, 255],
   [510, 509, 507, 503, 495, 479, 447, 383, 255],
   [510, 509, 507, 503, 495, 479, 447, 383, 255],
   [510, 509, 507, 503, 495, 479, 447, 383, 255],
   [510, 509, 507, 503, 495, 479, 447, 383, 255]]

theorem rS2_3 : uniqueByRowVisit rG1 rP2c2 = rP2c3 := by
  decide

def rP2c4 : Cand :=
  [[0, 0, 0, 0, 0, 0, 0, 0, 0],
   [504, 504, 504, 455, 455, 455, 63, 63, 63],
   [504, 504, 504, 455, 455, 455, 63, 63, 63],
   [510, 509, 507, 503, 495, 479, 447, 383, 255],
   [510, 509, 507, 503, 495, 479, 447, 383, 255],
   [510, 509, 507, 503, 495, 479, 447, 383, 255],
   [510, 509, 507, 503, 495, 479, 447, 383, 255],
   [510, 509, 507, 503, 495, 479, 447, 383, 255],
   [510, 509, 507, 503, 495, 479, 447, 383, 255]]

theorem rS2_4 : uniqueBy3x3BoxVisit rG1 rP2c3 = rP2c4 := by
  decide

def rP2c5 : Cand :=
  [[0, 0, 0, 0, 0, 0, 0, 0, 0],
   [504, 504, 504, 455, 455, 455, 63, 63, 63],
   [504, 504, 504, 455, 455, 455, 63, 63, 63],
   [510, 509, 507, 503, 495, 479, 447, 383, 255],
   [510, 509, 507, 503, 495, 479, 447, 383, 255],
   [510, 509, 507, 503, 495, 479, 447, 383, 255],
   [510, 509, 507, 503, 495, 479, 447, 383, 255],
   [510, 509, 507, 503, 495, 479, 447, 383, 255],
   [510, 509, 507, 503, 495, 479, 447, 383, 255]]

theorem rS2_5 : fillColumnUniquelyVisit rG1 rP2c4 = rP2c5 := by
  decide

def rP2c6 : Cand :=
  [[0, 0, 0, 0, 0, 0, 0, 0, 0],
   [504, 504, 504, 455, 455, 455, 63, 63, 63],
   [504, 504, 504, 455, 455, 455, 63, 63, 63],
   [510, 509, 507, 503, 495, 479, 447, 383, 255],
   [510, 509, 507, 503, 495, 479, 447, 383, 255],
   [510, 509, 507, 503, 495, 479, 447, 383, 255],
   [510, 509, 507, 503, 495, 479, 447, 383, 255],
   [510, 509, 507, 503, 495, 479, 447, 383, 255],
   [510, 509, 507, 503, 495, 479, 447, 383, 255]]

theorem rS2_6 : fillRowUniquelyVisit rG1 rP2c5 = rP2c6 := by
  decide

def rP2c7 : Cand :=
  [[0, 0, 0, 0, 0, 0, 0, 0, 0],
   [504, 504, 504, 455, 455, 455, 63, 63, 63],
   [504, 504, 504, 455, 455, 455, 63, 63, 63],
   [510, 509, 507, 503, 495, 479, 447, 383, 255],
   [510, 509, 507, 503, 495, 479, 447, 383, 255],
   [510, 509, 507, 503, 495, 479, 447, 383, 255],
   [510, 509, 507, 503, 495, 479, 447, 383, 255],
   [510, 509, 507, 503, 495, 479, 447, 383, 255],
   [510, 509, 507, 503, 495, 479, 447, 383, 255]]

theorem rS2_7 : fill3x3BoxUniquelyVisit rG1 rP2c6 = rP2c7 := by
  decide

def rG2 : Board :=
  [[1, 2, 3, 4, 5, 6, 7, 8, 9],
   [0, 0, 0, 0, 0, 0, 0, 0, 0],
   [0, 0, 0, 0, 0, 0, 0, 0, 0],
   [0, 0, 0, 0, 0, 0, 0, 0, 0],
   [0, 0, 0, 0, 0, 0, 0, 0, 0],
   [0, 0, 0, 0, 0, 0, 0, 0, 0],
   [0, 0, 0, 0, 0, 0, 0, 0, 0],
   [0, 0, 0, 0, 0, 0, 0, 0, 0],
   [0, 0, 0, 0, 0, 0, 0, 0, 0]]

theorem rS2_8 : applyUniques rP2c7 rG1 = (rG2, false) := by
  decide

theorem rPass2 : passOnce rG1 rP1c7 = (rG2, rP2c7, false) := by
  rw [passOnce_eq]
  unfold rulePhase
  rw [rS2_1, rS2_2, rS2_3, rS2_4, rS2_5, rS2_6, rS2_7, rS2_8]

theorem runMain : runLoop 729 mainPuzzle defaultCand = (mG6, mP6c7, false) := by
  calc runLoop 729 mainPuzzle defaultCand
    _ = runLoop 728 mG1 mP1c7 := runLoop_step_true (n := 728) mPass1
    _ = runLoop 727 mG2 mP2c7 := runLoop_step_true (n := 727) mPass2
    _ = runLoop 726 mG3 mP3c7 := runLoop_step_true (n := 726) mPass3
    _ = runLoop 725 mG4 mP4c7 := runLoop_step_true (n := 725) mPass4
    _ = runLoop 724 mG5 mP5c7 := runLoop_step_true (n := 724) mPass5
    _ = (mG6, mP6c7, false) := runLoop_step_false (n := 723) mPass6


theorem vals_le_of {g : Board} (hg : WF g)
    (h : ∀ x, x < 9 → ∀ y, y < 9 → bget g x y ≤ 9) : ∀ x y, bget g x y ≤ 9 := by
  intro x y
  by_cases hx : x < 9
  · by_cases hy : y < 9
    · exact h x hx y hy
    · rw [bget_oob hg (Or.inr (by omega))]
      norm_num
  · rw [bget_oob hg (Or.inl (by omega))]
    norm_num

/-!
### The claims
-/

/-- C1, counterexample to the claim as stated: with grid cell `(0,0)` already
holding `1` and candidate mask `(0,0)` equal to the single bit of value `1`,
`apply_uniques` rewrites the same value (no stored grid value differs before
and after the call) yet returns `true` — the flag records "some cell had
exactly one candidate", not "some stored value changed". -/
theorem c1_counterexample :
    (applyUniques oneMaskCand oneCellBoard).2 = true ∧
      (applyUniques oneMaskCand oneCellBoard).1 = oneCellBoard := by
  decide

/-- C1 (amended): `apply_uniques` writes, for each cell whose mask has exactly
one bit set, the corresponding value into the grid via `set_cell`, and its
boolean result is `true` if and only if some cell's mask had exactly one bit
set — even when the written value equals the one already stored, so it can
return `true` although no stored value differs. -/
theorem c1_apply_uniques_characterization (c : Cand) (g : Board) (hg : WF g) :
    ((applyUniques c g).2 = true ↔ hasSingle c) ∧
      ∀ a b, a < 9 → b < 9 →
        bget (applyUniques c g).1 a b
          = if remainingCandidates c a b = 1 then log2u16 (bget c a b) + 1 else bget g a b :=
  ⟨applyUniques_snd, fun a b ha hb => applyUniques_fst hg ha hb⟩

theorem c1_witness :
    ((applyUniques oneMaskCand oneCellBoard).2 = true ↔ hasSingle oneMaskCand) ∧
      ∀ a b, a < 9 → b < 9 →
        bget (applyUniques oneMaskCand oneCellBoard).1 a b
          = if remainingCandidates oneMaskCand a b = 1
            then log2u16 (bget oneMaskCand a b) + 1 else bget oneCellBoard a b :=
  c1_apply_uniques_characterization oneMaskCand oneCellBoard (by decide)

/-- C2, counterexample to the claim as stated: on a board whose only given is
`1` at `(0,0)` and with all masks full (`511`), `UniqueByRow::visit` changes
the solved cell's own mask (from `511` to `510`) — the inner loop runs over
`y2 in 0..9` without skipping the solved cell, so the claim's "leaves the
solved cell's own candidate mask unchanged" is false. -/
theorem c2_counterexample :
    bget oneCellBoard 0 0 = 1 ∧
      bget (uniqueByRowVisit oneCellBoard defaultCand) 0 0 ≠ bget defaultCand 0 0 := by
  decide

/-- C2 (amended): each unique-by-region rule removes, from every cell of each
region — including each solved cell itself — exactly the value bits of the
solved cells of that region: the visited state at `(a,b)` equals the original
mask AND-ed with the complement of the region's solved-value bits, and in
particular a solved cell's own mask loses that cell's own value bit rather
than staying unchanged. -/
theorem c2_unique_rules_closed_form (g c : Board) (hc : WF c)
    (hv : ∀ x y, bget g x y ≤ 9) :
    ∀ a b, a < 9 → b < 9 → bget c a b < 65536 →
      (bget (uniqueByColumnVisit g c) a b = bget c a b &&& (65535 ^^^ colSolvedMask g b) ∧
        bget (uniqueByRowVisit g c) a b = bget c a b &&& (65535 ^^^ rowSolvedMask g a) ∧
        bget (uniqueBy3x3BoxVisit g c) a b = bget c a b &&& (65535 ^^^ boxSolvedMask g a b)) ∧
      (bget g a b ≠ 0 →
        ((bget (uniqueByColumnVisit g c) a b).testBit (bget g a b - 1) = false ∧
          (bget (uniqueByRowVisit g c) a b).testBit (bget g a b - 1) = false ∧
          (bget (uniqueBy3x3BoxVisit g c) a b).testBit (bget g a b - 1) = false)) := by
  intro a b ha hb hm
  have h1 := uniqueByColumnVisit_bget hc hv ha hb hm
  have h2 := uniqueByRowVisit_bget hc hv ha hb hm
  have h3 := uniqueBy3x3BoxVisit_bget hc hv ha hb hm
  refine ⟨⟨h1, h2, h3⟩, fun hs => ?_⟩
  have hvle : bget g a b ≤ 9 := hv a b
  have hige : 1 ≤ bget g a b := by omega
  have hi16 : bget g a b - 1 < 16 := by omega
  have hself : (toCellMask (bget g a b)).testBit (bget g a b - 1) = true := by
    rw [toCellMask_eq_pow]
    exact Nat.testBit_two_pow_self
  have hmemc : (a, b) ∈ allCoords := mem_allCoords.mpr ⟨ha, hb⟩
  refine ⟨?_, ?_, ?_⟩
  · rw [h1]
    exact testBit_and_comp hi16
      (contribMask_has hmemc hs (by simp) _ hself)
  · rw [h2]
    exact testBit_and_comp hi16
      (contribMask_has hmemc hs (by simp) _ hself)
  · rw [h3]
    have hmemb : (a, b) ∈ boxOrderCoords := mem_boxOrderCoords.mpr ⟨ha, hb⟩
    exact testBit_and_comp hi16
      (contribMask_has hmemb hs (by simp) _ hself)

theorem c2_witness :
    (bget (uniqueByColumnVisit oneCellBoard defaultCand) 0 0
        = bget defaultCand 0 0 &&& (65535 ^^^ colSolvedMask oneCellBoard 0) ∧
      bget (uniqueByRowVisit oneCellBoard defaultCand) 0 0
        = bget defaultCand 0 0 &&& (65535 ^^^ rowSolvedMask oneCellBoard 0) ∧
      bget (uniqueBy3x3BoxVisit oneCellBoard defaultCand) 0 0
        = bget defaultCand 0 0 &&& (65535 ^^^ boxSolvedMask oneCellBoard 0 0)) ∧
    (bget oneCellBoard 0 0 ≠ 0 →
      ((bget (uniqueByColumnVisit oneCellBoard defaultCand) 0 0).testBit
          (bget oneCellBoard 0 0 - 1) = false ∧
        (bget (uniqueByRowVisit oneCellBoard defaultCand) 0 0).testBit
          (bget oneCellBoard 0 0 - 1) = false ∧
        (bget (uniqueBy3x3BoxVisit oneCellBoard defaultCand) 0 0).testBit
          (bget oneCellBoard 0 0 - 1) = false)) :=
  c2_unique_rules_closed_form oneCellBoard defaultCand (by decide)
    (vals_le_of (by decide) (by decide)) 0 0 (by decide) (by decide) (by decide)

/-- C3 (confirmed): for each fill rule, for each value and each of its
regions, the `(region, value)` step (of which all three visits are literally
the left fold, over `idxValPairs` and `boxValTriples`) behaves as claimed:
if exactly one cell of the region has the value's bit set, that cell's mask
becomes exactly that single bit and the bit is cleared from every other cell
of the region; if zero or two or more cells have the bit, the step is the
identity. -/
theorem c3_fill_rules (c : Cand) (hc : WF c) (n : Nat) :
    (∀ x, x < 9 → fillStepSpec c (rowTargets x) n) ∧
      (∀ y, y < 9 → fillStepSpec c (colTargets y) n) ∧
      (∀ xo, xo < 3 → ∀ yo, yo < 3 → fillStepSpec c (boxCells xo yo) n) := by
  refine ⟨fun x hx => ?_, fun y hy => ?_, fun xo hxo yo hyo => ?_⟩
  · exact fillStepSpec_of hc (rowTargets_nodup x hx) (rowTargets_bounds hx)
  · exact fillStepSpec_of hc (colTargets_nodup y hy) (colTargets_bounds hy)
  · exact fillStepSpec_of hc (boxCells_nodup xo hxo yo hyo) (boxCells_bounds hxo hyo)

theorem c3_witness : fillStepSpec defaultCand (rowTargets 0) 1 :=
  (c3_fill_rules defaultCand (by decide) 1).1 0 (by decide)

/-- C4 (confirmed): if a full pass of the seven rules followed by
`apply_uniques` returned `false` (the loop's Converged exit), then one more
full pass followed by `apply_uniques` returns `false` again, with grid and
candidate state unchanged: the converged state is a stable fixed point.  The
two bound hypotheses record the `u8`/`u16` typing of the Rust state (grid
values at most `9`, masks below `2^16`). -/
theorem c4_converged_stable (g : Board) (c : Cand) (hg : WF g) (hc : WF c)
    (hv : ∀ x y, bget g x y ≤ 9) (hcb : ∀ a b, a < 9 → b < 9 → bget c a b < 65536)
    (g' : Board) (c' : Cand) (h : passOnce g c = (g', c', false)) :
    passOnce g' c' = (g', c', false) := by
  have h1 : (passOnce g c).1 = g' := by rw [h]
  have h2 : (passOnce g c).2.1 = c' := by rw [h]
  have h3 : (passOnce g c).2.2 = false := by rw [h]
  have hs := passOnce_stable hg hc hv hcb h3
  rw [h1, h2] at hs
  exact hs

theorem c4_witness : passOnce zeroBoard defaultCand = (zeroBoard, defaultCand, false) :=
  c4_converged_stable zeroBoard defaultCand (by decide) (by decide)
    (vals_le_of (by decide) (by decide))
    (fun a b ha hb =>
      (show ∀ a, a < 9 → ∀ b, b < 9 → bget defaultCand a b < 65536 by decide) a ha b hb)
    zeroBoard defaultCand passZero

/-- C5, counterexample to the claim as stated: on the board whose first row
is `1..8` and a blank, the first pass's `FillColumnUniquely` performs
`set_exclusive_candidate` on cell `(0,8)` (the scan for `x = 0`, `n = 9`
finds the unique cell `(0,8)`, the earlier steps `n = 1..8` of that region
having changed nothing), the pass reports a change and leaves `(0,8)` with
exactly one candidate bit — yet after the next pass the popcount of `(0,8)`
is `0`, not `1`: `ExcludeWhenSolved` zeroes the now-solved cell, so the mask
does not "stay at bit count 1 thereafter". -/
theorem c5_counterexample :
    (passOnce rowBoard defaultCand).2.2 = true ∧
      ((idxValPairs.take 8).foldl (fun c pr => fillStep (rowTargets pr.1) pr.2 c)
          (uniquePhases rowBoard (excludeWhenSolvedVisit rowBoard defaultCand))
        = uniquePhases rowBoard (excludeWhenSolvedVisit rowBoard defaultCand)) ∧
      findSolo (uniquePhases rowBoard (excludeWhenSolvedVisit rowBoard defaultCand)) 9
          (rowTargets 0) none = some (0, 8) ∧
      countOnes16 (bget (passOnce rowBoard defaultCand).2.1 0 8) = 1 ∧
      countOnes16 (bget (passOnce (passOnce rowBoard defaultCand).1
        (passOnce rowBoard defaultCand).2.1).2.1 0 8) = 0 := by
  have hA : uniquePhases rowBoard (excludeWhenSolvedVisit rowBoard defaultCand) = rP1c4 := by
    unfold uniquePhases
    rw [rS1_1, rS1_2, rS1_3, rS1_4]
  refine ⟨?_, ?_, ?_, ?_, ?_⟩
  · rw [rPass1]
  · rw [hA]
    decide
  · rw [hA]
    decide
  · simp only [rPass1]
    decide
  · simp only [rPass1, rPass2]
    decide

/-- C5 (amended): along the propagation loop every cell's candidate mask only
narrows: after one pass each mask is a bit-subset of what it was (so its
popcount is non-increasing), and once a mask has popcount at most `1` it
keeps popcount at most `1` in all later passes (it never widens — though it
can drop from `1` to `0` when the solved cell is zeroed, so it does not stay
at exactly `1`). -/
theorem c5_masks_narrow (g : Board) (c : Cand) (hc : WF c) :
    CandLE (passOnce g c).2.1 c ∧
      (∀ a b, a < 9 → b < 9 →
        countOnes16 (bget (passOnce g c).2.1 a b) ≤ countOnes16 (bget c a b)) ∧
      (∀ a b, a < 9 → b < 9 → countOnes16 (bget c a b) ≤ 1 →
        countOnes16 (bget (passOnce g c).2.1 a b) ≤ 1) := by
  have hle : CandLE (passOnce g c).2.1 c := by
    rw [passOnce_eq]
    exact candLE_rulePhase hc
  exact ⟨hle, fun a b ha hb => countOnes16_mono (hle a b ha hb),
    fun a b ha hb h1 => le_trans (countOnes16_mono (hle a b ha hb)) h1⟩

theorem c5_witness :
    CandLE (passOnce rowBoard defaultCand).2.1 defaultCand ∧
      (∀ a b, a < 9 → b < 9 →
        countOnes16 (bget (passOnce rowBoard defaultCand).2.1 a b)
          ≤ countOnes16 (bget defaultCand a b)) ∧
      (∀ a b, a < 9 → b < 9 → countOnes16 (bget defaultCand a b) ≤ 1 →
        countOnes16 (bget (passOnce rowBoard defaultCand).2.1 a b) ≤ 1) :=
  c5_masks_narrow rowBoard defaultCand (by decide)

/-- C6 (confirmed): grid values are monotone along the loop: from any
(reachable) state, a cell already holding a non-zero value holds exactly that
value after the rest of the run, for any number of remaining passes — it is
never reset to zero nor overwritten with a different value.  (`apply_uniques`
never touches a solved cell because `ExcludeWhenSolved` zeroes its mask at
the start of the same pass and later rules only remove bits.) -/
theorem c6_grid_monotone (fuel : Nat) (g : Board) (c : Cand) (hg : WF g) (hc : WF c)
    (x y : Nat) (hxy : bget g x y ≠ 0) :
    bget (runLoop fuel g c).1 x y = bget g x y :=
  runLoop_grid_monotone g c hg hc x y hxy

theorem c6_witness :
    bget (runLoop 82 mainPuzzle defaultCand).1 0 4 = bget mainPuzzle 0 4 :=
  c6_grid_monotone 82 mainPuzzle defaultCand (by decide) (by decide) 0 4 (by decide)

/-- C7 (confirmed): every pass in which `apply_uniques` returns `true` sets
at least one previously-zero grid cell (strictly increasing the count of
solved cells, which is at most `81`), and the loop exits as soon as
`apply_uniques` returns `false`; hence from any well-formed initial grid the
loop terminates within the claimed `X*Y*9 = 729` passes. -/
theorem c7_termination :
    (∀ g c, WF g → WF c → (passOnce g c).2.2 = true →
      nzCount g < nzCount (passOnce g c).1) ∧
      (∀ g0, WF g0 → (runLoop 729 g0 defaultCand).2.2 = false) := by
  constructor
  · exact fun g c hg hc h => passOnce_true_nzCount hg hc h
  · intro g0 hg0
    apply runLoop_converges g0 defaultCand hg0 (by decide)
    have := nzCount_le g0
    omega

theorem c7_witness :
    nzCount mainPuzzle < nzCount (passOnce mainPuzzle defaultCand).1 ∧
      (runLoop 729 mainPuzzle defaultCand).2.2 = false :=
  ⟨c7_termination.1 mainPuzzle defaultCand (by decide) (by decide) (by rw [mPass1]),
    c7_termination.2 mainPuzzle (by decide)⟩

/-- C8 (confirmed): when a cell's mask has exactly one bit set (and is a
9-bit mask, as all reachable masks are), `apply_uniques` writes exactly
`floor(log2(mask)) + 1` into that cell — the value `v` in `1..=9` whose bit
`v-1` is the set bit.  The source computes this via `f32::log2`, which is
exact on the nine single-bit masks (they are powers of two, exactly
representable in `f32`); the embedding's `log2u16` agrees with `Nat.log2`
there (`single_mask_log2`). -/
theorem c8_resolution (c : Cand) (g : Board) (hg : WF g) (x y : Nat) (hx : x < 9) (hy : y < 9)
    (hmask : bget c x y < 512) (hone : remainingCandidates c x y = 1) :
    bget (applyUniques c g).1 x y = Nat.log2 (bget c x y) + 1 ∧
      bget c x y = toCellMask (Nat.log2 (bget c x y) + 1) ∧
      1 ≤ Nat.log2 (bget c x y) + 1 ∧ Nat.log2 (bget c x y) + 1 ≤ 9 := by
  have hfact := single_mask_fact hmask hone
  have hbridge : log2u16 (bget c x y) = Nat.log2 (bget c x y) := single_mask_log2 hmask hone
  rw [applyUniques_fst hg hx hy, if_pos hone, hbridge]
  exact ⟨rfl, hfact.1, hfact.2.1, hfact.2.2⟩

theorem c8_witness :
    bget (applyUniques oneMaskCand zeroBoard).1 0 0 = Nat.log2 (bget oneMaskCand 0 0) + 1 ∧
      bget oneMaskCand 0 0 = toCellMask (Nat.log2 (bget oneMaskCand 0 0) + 1) ∧
      1 ≤ Nat.log2 (bget oneMaskCand 0 0) + 1 ∧ Nat.log2 (bget oneMaskCand 0 0) + 1 ≤ 9 :=
  c8_resolution oneMaskCand zeroBoard (by decide) 0 0 (by decide) (by decide)
    (by decide) (by decide)

/-- C9 (confirmed): on the canonical puzzle hard-coded in `main`, the loop
converges (within the claimed 729-pass bound; it in fact converges after six
passes), the converged grid has strictly more solved cells than the input,
and no row, column or 3×3 box of the converged grid holds two solved cells
with the same value. -/
theorem c9_canonical_run :
    (runLoop 729 mainPuzzle defaultCand).2.2 = false ∧
      nzCount mainPuzzle < nzCount (runLoop 729 mainPuzzle defaultCand).1 ∧
      noRegionDup (runLoop 729 mainPuzzle defaultCand).1 := by
  rw [runMain]
  refine ⟨rfl, ?_, ?_⟩
  · decide
  · decide

/-- C10 (confirmed): the three fill rules ignore the gameboard argument
entirely (the source binds it as `_`): visiting them with different grids and
the same candidate state yields identical candidate states. -/
theorem c10_fill_rules_ignore_grid (g1 g2 : Board) (c : Cand) :
    fillColumnUniquelyVisit g1 c = fillColumnUniquelyVisit g2 c ∧
      fillRowUniquelyVisit g1 c = fillRowUniquelyVisit g2 c ∧
      fill3x3BoxUniquelyVisit g1 c = fill3x3BoxUniquelyVisit g2 c :=
  ⟨rfl, rfl, rfl⟩
